import Mathlib

/-!
# lambroll: permission reconciler, archive builder, Jsonnet native functions

A shallow embedding of three source files.

* `src/functionurl.go`: the permission identifier (`FunctionURLPermission.Sid`), the
  reading of the live resource policy (`PolicyStatement`, `getFunctionURLPermissions`),
  the validation of a function URL definition (`FunctionURL.Validate`), the plan
  computation (`calcFunctionURLPermissionsDiff`) and its application
  (`deployFunctionURLConfig`, `deployFunctionURLPermissions`).
* `src/archive.go`: `createZipArchive`, `matchExcludes`, `followSymlink`, `addToZip`.
* `src/jsonnet.go`: the native functions `env` and `must_env`.

Conventions of the embedding
* a Go `*string` is an `Option String`; a Go `any` holding decoded JSON is a `JSONValue`;
* a Go `map[string]interface{}` is an association list, the lookup `m[k]` of a
  missing key gives `JSONValue.null` (Go's nil interface), and `range` visits
  the entries in list order;
* a method with a pointer receiver that writes to its receiver returns the
  updated receiver next to its result;
* a remote read is represented by the response it returned, a remote write by a call
  recorded in order and answered by a function of the calls made so far;
* the file system and the library functions on paths are fields of a `Host`.
-/

namespace Lambroll

/-! ## Library functions the source calls -/

/-- UTF-8 bytes of one character (Go strings are byte strings). -/
def utf8Bytes (c : Char) : List Nat :=
  let n := c.toNat
  if n < 128 then [n]
  else if n < 2048 then [192 + n / 64, 128 + n % 64]
  else if n < 65536 then [224 + n / 4096, 128 + n / 64 % 64, 128 + n % 64]
  else [240 + n / 262144, 128 + n / 4096 % 64, 128 + n / 64 % 64, 128 + n % 64]

/-- Bytes of a string, `[]byte(s)`. -/
def stringBytes (s : String) : List Nat :=
  s.data.flatMap utf8Bytes

/-- Lexicographic order on byte strings, `a <= b`. -/
def bytesLe : List Nat → List Nat → Bool
  | [], _ => true
  | _ :: _, [] => false
  | a :: as, b :: bs => if a < b then true else if b < a then false else bytesLe as bs

/-- Go's `a <= b` on strings. -/
def stringLe (a b : String) : Bool :=
  bytesLe (stringBytes a) (stringBytes b)

/-- Insertion of one string into an ascending list. -/
def insertString (s : String) : List String → List String
  | [] => [s]
  | t :: ts => if stringLe s t then s :: t :: ts else t :: insertString s ts

/-- The library call `sort.Strings`: the ascending rearrangement of the list. -/
def sortStrings : List String → List String
  | [] => []
  | s :: ss => insertString s (sortStrings ss)

/-- The library call `lo.Difference(list1, list2)`: the elements of `list1` absent from
`list2`, and the elements of `list2` absent from `list1`, each in its original order and
with its repetitions. -/
def loDifference (list1 list2 : List String) : List String × List String :=
  (list1.filter (fun x => !list2.contains x), list2.filter (fun x => !list1.contains x))

/-- Go's `strings.ToLower`, on the ASCII letters; other characters are kept (no other
character lower-cases to a letter of the key it is compared with). -/
def toLower (s : String) : String :=
  String.mk (s.data.map fun c => if 65 ≤ c.toNat ∧ c.toNat ≤ 90 then Char.ofNat (c.toNat + 32) else c)

/-! ### SHA-1 (`crypto/sha1`), on bytes held as natural numbers -/

namespace SHA1

/-- Left rotation of a 32-bit word. -/
def rotl32 (x n : Nat) : Nat :=
  ((x <<< n) ||| (x >>> (32 - n))) % 4294967296

/-- Big-endian word made of the first four bytes. -/
def be32 : List Nat → Nat
  | a :: b :: c :: d :: _ => ((a * 256 + b) * 256 + c) * 256 + d
  | _ => 0

/-- The first `n` big-endian words of a byte string. -/
def words : Nat → List Nat → List Nat
  | 0, _ => []
  | n + 1, bs => be32 bs :: words n (bs.drop 4)

/-- Message schedule, newest word first: `n` more words are derived. -/
def extend : Nat → List Nat → List Nat
  | 0, w => w
  | n + 1, w =>
    extend n (rotl32 (w.getD 2 0 ^^^ w.getD 7 0 ^^^ w.getD 13 0 ^^^ w.getD 15 0) 1 :: w)

/-- The five working words. -/
structure State where
  a : Nat
  b : Nat
  c : Nat
  d : Nat
  e : Nat
deriving DecidableEq, Repr

/-- Round function and round constant of round `i`. -/
def roundFK (i b c d : Nat) : Nat × Nat :=
  if i < 20 then ((b &&& c) ||| ((4294967295 - b) &&& d), 0x5A827999)
  else if i < 40 then (b ^^^ c ^^^ d, 0x6ED9EBA1)
  else if i < 60 then ((b &&& c) ||| (b &&& d) ||| (c &&& d), 0x8F1BBCDC)
  else (b ^^^ c ^^^ d, 0xCA62C1D6)

/-- The rounds over the schedule words, starting at round `i`. -/
def rounds : Nat → List Nat → State → State
  | _, [], s => s
  | i, w :: ws, s =>
    let fk := roundFK i s.b s.c s.d
    let t := (rotl32 s.a 5 + fk.1 + s.e + fk.2 + w) % 4294967296
    rounds (i + 1) ws ⟨t, s.a, rotl32 s.b 30, s.c, s.d⟩

/-- Compression of one 64-byte block. -/
def block (h : State) (bs : List Nat) : State :=
  let w := (extend 64 (words 16 bs).reverse).reverse
  let s := rounds 0 w h
  ⟨(h.a + s.a) % 4294967296, (h.b + s.b) % 4294967296, (h.c + s.c) % 4294967296,
   (h.d + s.d) % 4294967296, (h.e + s.e) % 4294967296⟩

/-- Compression of `n` consecutive blocks. -/
def blocks : Nat → State → List Nat → State
  | 0, h, _ => h
  | n + 1, h, bs => blocks n (block h bs) (bs.drop 64)

/-- The low `n` bytes of `x`, big-endian. -/
def beBytes : Nat → Nat → List Nat
  | 0, _ => []
  | n + 1, x => (x / 256 ^ n) % 256 :: beBytes n x

/-- Padding: a one bit, zeros, and the bit length on eight bytes. -/
def pad (bs : List Nat) : List Nat :=
  let l := bs.length
  bs ++ 128 :: List.replicate ((119 - l % 64) % 64) 0 ++ beBytes 8 (l * 8)

/-- The library call `sha1.Sum`: the 20-byte digest. -/
def Sum (bs : List Nat) : List Nat :=
  let p := pad bs
  let s := blocks (p.length / 64) ⟨0x67452301, 0xEFCDAB89, 0x98BADCFE, 0x10325476, 0xC3D2E1F0⟩ p
  beBytes 4 s.a ++ beBytes 4 s.b ++ beBytes 4 s.c ++ beBytes 4 s.d ++ beBytes 4 s.e

end SHA1

/-- One lower-case hexadecimal digit. -/
def hexDigit (n : Nat) : Char :=
  "0123456789abcdef".data.getD n '0'

/-- The verb `%x` applied to a byte array: two digits per byte. -/
def hexBytes (bs : List Nat) : List Char :=
  bs.flatMap fun b => [hexDigit (b / 16), hexDigit (b % 16)]

/-- SidFormat, `"lambroll-%x"`, applied to a digest. -/
def SidFormat (digest : List Nat) : String :=
  String.mk ("lambroll-".data ++ hexBytes digest)

/-! ### `encoding/json` output for the permission struct -/

/-- A JSON string character as `json.Marshal` writes it (HTML-safe escaping). -/
def jsonEscape (c : Char) : List Char :=
  let n := c.toNat
  if n = 34 then [Char.ofNat 92, Char.ofNat 34]
  else if n = 92 then [Char.ofNat 92, Char.ofNat 92]
  else if n = 8 then [Char.ofNat 92, 'b']
  else if n = 12 then [Char.ofNat 92, 'f']
  else if n = 10 then [Char.ofNat 92, 'n']
  else if n = 13 then [Char.ofNat 92, 'r']
  else if n = 9 then [Char.ofNat 92, 't']
  else if n < 32 ∨ n = 60 ∨ n = 62 ∨ n = 38 then
    [Char.ofNat 92, 'u', '0', '0', hexDigit (n / 16), hexDigit (n % 16)]
  else if n = 8232 then [Char.ofNat 92, 'u', '2', '0', '2', '8']
  else if n = 8233 then [Char.ofNat 92, 'u', '2', '0', '2', '9']
  else [c]

/-- A quoted JSON string. -/
def jsonString (s : String) : List Char :=
  Char.ofNat 34 :: s.data.flatMap jsonEscape ++ [Char.ofNat 34]

/-- A `*string` member: `null` for nil. -/
def jsonOptString : Option String → List Char
  | none => "null".data
  | some s => jsonString s

/-- One `"name":value` member. -/
def jsonMember (name : String) (value : List Char) : List Char :=
  jsonString name ++ ':' :: value

/-! ### `aws/arn` -/

/-- The text before the first `:` and, when there is one, the text after it. -/
def cutColon : List Char → List Char × Option (List Char)
  | [] => ([], none)
  | c :: cs =>
    if c = ':' then ([], some cs)
    else ((c :: (cutColon cs).1), (cutColon cs).2)

/-- The library call `strings.SplitN(s, ":", n)`. -/
def splitNColon : Nat → List Char → List (List Char)
  | 0, _ => []
  | 1, s => [s]
  | n + 2, s =>
    match cutColon s with
    | (a, none) => [a]
    | (a, some rest) => a :: splitNColon (n + 1) rest

/-- The parts of an ARN, `arn.ARN`. -/
structure ARN where
  Partition : String
  Service : String
  Region : String
  AccountID : String
  Resource : String
deriving DecidableEq, Repr

/-- The library call `arn.Parse`: the text must start with `arn:` and have six
colon-separated sections, the last one holding the rest. -/
def arnParse (s : String) : Option ARN :=
  if "arn:".data.isPrefixOf s.data then
    match splitNColon 6 s.data with
    | [_, p, sv, r, a, rs] => some ⟨String.mk p, String.mk sv, String.mk r, String.mk a, String.mk rs⟩
    | _ => none
  else none

/-! ## Data model -/

/-- Decoded JSON held in a Go `any`. -/
inductive JSONValue where
  | null
  | bool (b : Bool)
  | number (literal : String)
  | string (s : String)
  | array (items : List JSONValue)
  | object (members : List (String × JSONValue))

/-- Go's map index `m[k]`: nil for a missing key. -/
def mapIndex : List (String × JSONValue) → String → JSONValue
  | [], _ => JSONValue.null
  | (k1, v) :: m, k => if k1 = k then v else mapIndex m k

/-- The comparison `v == nil` on an interface value. -/
def JSONValue.isNil : JSONValue → Bool
  | JSONValue.null => true
  | _ => false

/-- The request type `lambda.AddPermissionInput` of the SDK, members in declaration
order. -/
structure AddPermissionInput where
  Action : Option String := none
  FunctionName : Option String := none
  Principal : Option String := none
  StatementId : Option String := none
  EventSourceToken : Option String := none
  FunctionUrlAuthType : String := ""
  PrincipalOrgID : Option String := none
  Qualifier : Option String := none
  RevisionId : Option String := none
  SourceAccount : Option String := none
  SourceArn : Option String := none
deriving DecidableEq, Repr

/-- The struct `FunctionURLPermission`: the embedded request, the cached `sid` and the
`once` guard (true when its function has run). -/
structure FunctionURLPermission extends AddPermissionInput where
  sid : String := ""
  once : Bool := false
deriving DecidableEq, Repr

/-- The slice type `FunctionURLPermissions`. -/
abbrev FunctionURLPermissions := List FunctionURLPermission

/-- The SDK type `types.Cors`. -/
structure Cors where
  AllowCredentials : Option Bool := none
  AllowHeaders : List String := []
  AllowMethods : List String := []
  AllowOrigins : List String := []
  ExposeHeaders : List String := []
  MaxAge : Option Int := none
deriving DecidableEq, Repr

/-- The type `FunctionURLConfig`, the SDK's `lambda.CreateFunctionUrlConfigInput`. -/
structure FunctionURLConfig where
  AuthType : String := ""
  FunctionName : Option String := none
  Cors : Option Cors := none
  InvokeMode : String := ""
  Qualifier : Option String := none
deriving DecidableEq, Repr

/-- The constant `types.FunctionUrlAuthTypeNone`. -/
def FunctionUrlAuthTypeNone : String := "NONE"

/-- The constant `types.FunctionUrlAuthTypeAwsIam`. -/
def FunctionUrlAuthTypeAwsIam : String := "AWS_IAM"

/-- The struct `FunctionURL`. -/
structure FunctionURL where
  Config : Option FunctionURLConfig := none
  Permissions : FunctionURLPermissions := []
deriving DecidableEq, Repr

/-- The struct `PolicyStatement`. -/
structure PolicyStatement where
  Sid : String := ""
  Effect : String := ""
  Principal : JSONValue := JSONValue.null
  Action : String := ""
  Resource : JSONValue := JSONValue.null
  Condition : JSONValue := JSONValue.null

/-- The struct `PolicyOutput`. -/
structure PolicyOutput where
  Id : String := ""
  Version : String := ""
  Statement : List PolicyStatement := []

/-- An error returned by the remote client; `notFound` tells whether `errors.As` finds a
`types.ResourceNotFoundException` in it. -/
structure RemoteError where
  notFound : Bool
  message : String
deriving DecidableEq, Repr

/-- The response `lambda.GetPolicyOutput`; the policy text is held as what
`json.Unmarshal` makes of it, an error when it does not parse. -/
structure GetPolicyOutput where
  Policy : Except String PolicyOutput

/-- How a call ends: a value, a returned error, or a panic. -/
inductive Outcome (α : Type) where
  | ok (value : α)
  | error (message : String)
  | panic (message : String)
deriving DecidableEq, Repr

/-! ## `FunctionURL.Validate` and the request builders -/

/-- The method `FunctionURL.Validate`: the returned error (none for nil) and the
definition as the call leaves it. -/
def FunctionURL.Validate (f : FunctionURL) (functionName : String) : Option String × FunctionURL :=
  match f.Config with
  | none => (some "function url 'Config' attribute is required", f)
  | some c =>
    let f1 : FunctionURL := { f with Config := some { c with FunctionName := some functionName } }
    if c.AuthType = FunctionUrlAuthTypeNone then
      if f1.Permissions.length = 0 then
        (none, { f1 with Permissions := f1.Permissions ++ [{ Principal := some "*" }] })
      else (none, f1)
    else if c.AuthType = FunctionUrlAuthTypeAwsIam then
      if f1.Permissions.length = 0 then
        (some ("function url 'Permissions' attribute is required when 'AuthType' is '"
          ++ FunctionUrlAuthTypeAwsIam ++ "'"), f1)
      else (none, f1)
    else (some ("unknown function url 'AuthType': " ++ c.AuthType), f1)

/-! ## `FunctionURLPermission.Sid` -/

/-- The call `json.Marshal(p)` on a permission: the exported members of the embedded
request, in declaration order. -/
def marshalPermission (p : FunctionURLPermission) : List Char :=
  Char.ofNat 123 ::
    (jsonMember "Action" (jsonOptString p.Action) ++ ',' ::
     jsonMember "FunctionName" (jsonOptString p.FunctionName) ++ ',' ::
     jsonMember "Principal" (jsonOptString p.Principal) ++ ',' ::
     jsonMember "StatementId" (jsonOptString p.StatementId) ++ ',' ::
     jsonMember "EventSourceToken" (jsonOptString p.EventSourceToken) ++ ',' ::
     jsonMember "FunctionUrlAuthType" (jsonString p.FunctionUrlAuthType) ++ ',' ::
     jsonMember "PrincipalOrgID" (jsonOptString p.PrincipalOrgID) ++ ',' ::
     jsonMember "Qualifier" (jsonOptString p.Qualifier) ++ ',' ::
     jsonMember "RevisionId" (jsonOptString p.RevisionId) ++ ',' ::
     jsonMember "SourceAccount" (jsonOptString p.SourceAccount) ++ ',' ::
     jsonMember "SourceArn" (jsonOptString p.SourceArn)) ++ [Char.ofNat 125]

/-- The identifier the `once` function computes: SidFormat of the SHA-1 of the JSON. -/
def derivedSid (p : FunctionURLPermission) : String :=
  SidFormat (SHA1.Sum ((marshalPermission p).flatMap utf8Bytes))

/-- The method `FunctionURLPermission.Sid`: the identifier and the permission as the
call leaves it. -/
def FunctionURLPermission.Sid (p : FunctionURLPermission) : String × FunctionURLPermission :=
  if p.sid ≠ "" then (p.sid, p)
  else
    match p.StatementId with
    | some s => (s, p)
    | none =>
      if p.once then (p.sid, p)
      else
        let s := derivedSid p
        (s, { p with sid := s, StatementId := some s, once := true })

/-- The method `FunctionURL.AddPermissionInput`; the permission is returned as the call
to `Sid` leaves it. A nil `Config` makes the member read panic. -/
def FunctionURL.AddPermissionInput (fc : FunctionURL) (p : FunctionURLPermission) :
    Outcome (AddPermissionInput × FunctionURLPermission) :=
  match fc.Config with
  | none => Outcome.panic "invalid memory address or nil pointer dereference"
  | some c =>
    Outcome.ok
      ({ Action := some "lambda:InvokeFunctionUrl"
         FunctionName := c.FunctionName
         Qualifier := c.Qualifier
         FunctionUrlAuthType := c.AuthType
         StatementId := some p.Sid.1
         Principal := p.Principal
         PrincipalOrgID := p.PrincipalOrgID
         SourceArn := p.SourceArn
         SourceAccount := p.SourceAccount }, p.Sid.2)

/-- The slice of identifiers `p.Sid()` for each permission in turn, and the permissions
as the calls leave them. -/
def sidsOf : FunctionURLPermissions → List String × FunctionURLPermissions
  | [] => ([], [])
  | p :: ps => (p.Sid.1 :: (sidsOf ps).1, p.Sid.2 :: (sidsOf ps).2)

/-- The method `FunctionURLPermissions.Sids`: the identifiers, sorted. -/
def FunctionURLPermissions.Sids (ps : FunctionURLPermissions) : List String × FunctionURLPermissions :=
  (sortStrings (sidsOf ps).1, (sidsOf ps).2)

/-- The method `FunctionURLPermissions.Find`: the first permission whose `Sid()` is `sid`,
and the permissions as the calls leave them. -/
def FunctionURLPermissions.Find : FunctionURLPermissions → String →
    Option FunctionURLPermission × FunctionURLPermissions
  | [], _ => (none, [])
  | p :: ps, sid =>
    if p.Sid.1 = sid then (some p.Sid.2, p.Sid.2 :: ps)
    else ((FunctionURLPermissions.Find ps sid).1, p.Sid.2 :: (FunctionURLPermissions.Find ps sid).2)

/-! ## Reading the live policy -/

/-- The method `PolicyStatement.PrincipalString`. -/
def PolicyStatement.PrincipalString (ps : PolicyStatement) : Option String :=
  match ps.Principal with
  | JSONValue.string v => some v
  | JSONValue.object v =>
    if !(mapIndex v "AWS").isNil then
      match mapIndex v "AWS" with
      | JSONValue.string vv =>
        match arnParse vv with
        | some a => some a.AccountID
        | none => some vv
      | _ => none
    else if !(mapIndex v "Service").isNil then
      match mapIndex v "Service" with
      | JSONValue.string vv => some vv
      | _ => none
    else none
  | _ => none

/-- The method `PolicyStatement.PrincipalOrgID`. -/
def PolicyStatement.PrincipalOrgID (ps : PolicyStatement) : Option String :=
  match ps.PrincipalString with
  | none => none
  | some principal =>
    if principal ≠ "*" then none
    else
      match ps.Condition with
      | JSONValue.object m =>
        if (mapIndex m "StringEquals").isNil then none
        else
          match mapIndex m "StringEquals" with
          | JSONValue.object mm =>
            if (mapIndex mm "lambda:FunctionUrlAuthType").isNil then none
            else
              match mapIndex mm "lambda:FunctionUrlAuthType" with
              | JSONValue.string v =>
                if v ≠ "AWS_IAM" then none
                else
                  match mapIndex mm "aws:PrincipalOrgID" with
                  | JSONValue.string o => some o
                  | _ => none
              | _ =>
                match mapIndex mm "aws:PrincipalOrgID" with
                | JSONValue.string o => some o
                | _ => none
          | _ => none
      | _ => none

/-- The loop of `SourceArn`: the value of the first visited entry whose lower-cased key
is `aws:sourcearn`, nil when there is none. -/
def findSourceArn : List (String × JSONValue) → JSONValue
  | [] => JSONValue.null
  | (k, v) :: mm => if toLower k = "aws:sourcearn" then v else findSourceArn mm

/-- The method `PolicyStatement.SourceArn`. -/
def PolicyStatement.SourceArn (ps : PolicyStatement) : Option String :=
  match ps.Condition with
  | JSONValue.object m =>
    if (mapIndex m "ArnLike").isNil then none
    else
      match mapIndex m "ArnLike" with
      | JSONValue.object mm =>
        match findSourceArn mm with
        | JSONValue.string v => some v
        | _ => none
      | _ => none
  | _ => none

/-- The permission built for one kept statement (lines 401-409). -/
def permissionOfStatement (s : PolicyStatement) : FunctionURLPermission :=
  { sid := s.Sid
    StatementId := some s.Sid
    Principal := s.PrincipalString
    PrincipalOrgID := s.PrincipalOrgID
    SourceArn := s.SourceArn }

/-- The loop over `policy.Statement` (lines 394-410). -/
def permissionsOfStatements : List PolicyStatement → FunctionURLPermissions
  | [] => []
  | s :: rest =>
    if s.Action ≠ "lambda:InvokeFunctionUrl" ∨ s.Effect ≠ "Allow" then permissionsOfStatements rest
    else permissionOfStatement s :: permissionsOfStatements rest

/-- Lines 387-412 of `getFunctionURLPermissions`: the permissions read from the
response, none when there is no response. -/
def permissionsOfResponse : Option GetPolicyOutput → Except String FunctionURLPermissions
  | none => Except.ok []
  | some out =>
    match out.Policy with
    | Except.error m => Except.error ("failed to unmarshal policy: " ++ m)
    | Except.ok policy => Except.ok (permissionsOfStatements policy.Statement)

/-- The method `getFunctionURLPermissions`, given what `GetPolicy` returned: the response
(none for nil) and the error (none for nil). -/
def getFunctionURLPermissions (res : Option GetPolicyOutput) (err : Option RemoteError) :
    Except String FunctionURLPermissions :=
  match err with
  | some e =>
    if e.notFound then permissionsOfResponse res
    else Except.error ("failed to get policy: " ++ e.message)
  | none => permissionsOfResponse res

/-! ## `calcFunctionURLPermissionsDiff` -/

/-- One of the two loops of lines 350-368: `Find` for each identifier in turn, a panic
with the message `what` followed by the identifier when `Find` returns nil. The
permissions are returned as the calls leave them. -/
def findAll (what : String) : FunctionURLPermissions → List String →
    Outcome FunctionURLPermissions × FunctionURLPermissions
  | ps, [] => (Outcome.ok [], ps)
  | ps, sid :: sids =>
    match (FunctionURLPermissions.Find ps sid).1 with
    | none => (Outcome.panic (what ++ sid), (FunctionURLPermissions.Find ps sid).2)
    | some p =>
      match (findAll what (FunctionURLPermissions.Find ps sid).2 sids).1 with
      | Outcome.ok found =>
        (Outcome.ok (p :: found), (findAll what (FunctionURLPermissions.Find ps sid).2 sids).2)
      | Outcome.error m =>
        (Outcome.error m, (findAll what (FunctionURLPermissions.Find ps sid).2 sids).2)
      | Outcome.panic m =>
        (Outcome.panic m, (findAll what (FunctionURLPermissions.Find ps sid).2 sids).2)

/-- The result of `calcFunctionURLPermissionsDiff`: the additions and the removals. -/
structure Plan where
  adds : FunctionURLPermissions
  removes : FunctionURLPermissions
deriving DecidableEq, Repr

/-- The method `calcFunctionURLPermissionsDiff`, given what `GetPolicy` returned: the
outcome, and the definition as the calls to `Sid` leave it. -/
def calcFunctionURLPermissionsDiff (res : Option GetPolicyOutput) (err : Option RemoteError)
    (fc : FunctionURL) : Outcome Plan × FunctionURL :=
  match fc.Config with
  | none => (Outcome.panic "invalid memory address or nil pointer dereference", fc)
  | some c =>
    match c.FunctionName with
    | none => (Outcome.panic "invalid memory address or nil pointer dereference", fc)
    | some _ =>
      match getFunctionURLPermissions res err with
      | Except.error m => (Outcome.error m, fc)
      | Except.ok existsPermissions =>
        let existsSids := (sidsOf existsPermissions).1
        let exists1 := (sidsOf existsPermissions).2
        let desired := FunctionURLPermissions.Sids fc.Permissions
        let fc1 : FunctionURL := { fc with Permissions := desired.2 }
        let removeSids := (loDifference existsSids desired.1).1
        let addSids := (loDifference existsSids desired.1).2
        if removeSids.length = 0 ∧ addSids.length = 0 then (Outcome.ok ⟨[], []⟩, fc1)
        else
          let a := findAll "permission not found for adding: " fc1.Permissions addSids
          let fc2 : FunctionURL := { fc1 with Permissions := a.2 }
          match a.1 with
          | Outcome.panic m => (Outcome.panic m, fc2)
          | Outcome.error m => (Outcome.error m, fc2)
          | Outcome.ok adds =>
            match (findAll "permission not found for removal: " exists1 removeSids).1 with
            | Outcome.panic m => (Outcome.panic m, fc2)
            | Outcome.error m => (Outcome.error m, fc2)
            | Outcome.ok removes => (Outcome.ok ⟨adds, removes⟩, fc2)

end Lambroll

/-! ## Applying the plan: `deployFunctionURLConfig`, `deployFunctionURLPermissions`

The calls that change the remote state are recorded in order. The remote side is a
function of the calls made so far and of the call at hand. -/

namespace Lambroll

/-- The request type `lambda.RemovePermissionInput` of the SDK. -/
structure RemovePermissionInput where
  FunctionName : Option String := none
  StatementId : Option String := none
  Qualifier : Option String := none
  RevisionId : Option String := none
deriving DecidableEq, Repr

/-- The request type `lambda.UpdateFunctionUrlConfigInput` of the SDK. -/
structure UpdateFunctionUrlConfigInput where
  FunctionName : Option String := none
  AuthType : String := ""
  Cors : Option Cors := none
  InvokeMode : String := ""
  Qualifier : Option String := none
deriving DecidableEq, Repr

/-- The response type `lambda.GetFunctionUrlConfigOutput` of the SDK, the members read. -/
structure GetFunctionUrlConfigOutput where
  AuthType : String := ""
  Cors : Option Cors := none
  InvokeMode : String := ""
  FunctionUrl : Option String := none
deriving DecidableEq, Repr

/-- A call that changes the remote state. -/
inductive Call where
  | AddPermission (input : AddPermissionInput)
  | RemovePermission (input : RemovePermissionInput)
  | CreateFunctionUrlConfig (input : FunctionURLConfig)
  | UpdateFunctionUrlConfig (input : UpdateFunctionUrlConfigInput)
deriving DecidableEq, Repr

/-- What a call returned: the error (none for nil) and, for the create and update calls,
the member `FunctionUrl` of the response. -/
structure Reply where
  err : Option RemoteError := none
  FunctionUrl : Option String := none
deriving DecidableEq, Repr

/-- The remote side: the reply to a call, given the calls made before it. -/
abbrev Remote := List Call → Call → Reply

/-- The struct `DeployOption`, the member read here. -/
structure DeployOption where
  DryRun : Bool := false
deriving DecidableEq, Repr

/-- The method `FunctionURL.RemovePermissionInput`. A nil `Config` makes the member read
panic. -/
def FunctionURL.RemovePermissionInput (fc : FunctionURL) (sid : String) :
    Outcome RemovePermissionInput :=
  match fc.Config with
  | none => Outcome.panic "invalid memory address or nil pointer dereference"
  | some c =>
    Outcome.ok { FunctionName := c.FunctionName, Qualifier := c.Qualifier, StatementId := some sid }

/-- The loop of lines 316-321: one `AddPermission` call per addition, until one fails.
Returns the outcome and the calls made so far. The additions come settled out of
`calcFunctionURLPermissionsDiff`, so the calls of `Sid` write nothing. -/
def addPermissions (remote : Remote) (fc : FunctionURL) :
    List Call → FunctionURLPermissions → Outcome Unit × List Call
  | made, [] => (Outcome.ok (), made)
  | made, p :: ps =>
    match fc.AddPermissionInput p with
    | Outcome.panic m => (Outcome.panic m, made)
    | Outcome.error m => (Outcome.error m, made)
    | Outcome.ok (input, _) =>
      match (remote made (Call.AddPermission input)).err with
      | some e =>
        (Outcome.error ("failed to add permission: " ++ e.message),
         made ++ [Call.AddPermission input])
      | none => addPermissions remote fc (made ++ [Call.AddPermission input]) ps

/-- The loop of lines 326-331: one `RemovePermission` call per removal, until one fails.
A nil `StatementId` makes the dereference panic. -/
def removePermissions (remote : Remote) (fc : FunctionURL) :
    List Call → FunctionURLPermissions → Outcome Unit × List Call
  | made, [] => (Outcome.ok (), made)
  | made, p :: ps =>
    match p.StatementId with
    | none => (Outcome.panic "invalid memory address or nil pointer dereference", made)
    | some sid =>
      match fc.RemovePermissionInput sid with
      | Outcome.panic m => (Outcome.panic m, made)
      | Outcome.error m => (Outcome.error m, made)
      | Outcome.ok input =>
        match (remote made (Call.RemovePermission input)).err with
        | some e =>
          (Outcome.error ("failed to remove permission: " ++ e.message),
           made ++ [Call.RemovePermission input])
        | none => removePermissions remote fc (made ++ [Call.RemovePermission input]) ps

/-- How a deployment step ends: the outcome (ok for a nil error), the calls made so far
and the definition as the step leaves it. -/
structure Run where
  outcome : Outcome Unit
  calls : List Call
  fc : FunctionURL
deriving DecidableEq, Repr

/-- The method `deployFunctionURLPermissions`, given what `GetPolicy` returned and the
calls made before. -/
def deployFunctionURLPermissions (remote : Remote) (res : Option GetPolicyOutput)
    (err : Option RemoteError) (fc : FunctionURL) (opt : DeployOption) (made : List Call) : Run :=
  match calcFunctionURLPermissionsDiff res err fc with
  | (Outcome.panic m, fc1) => ⟨Outcome.panic m, made, fc1⟩
  | (Outcome.error m, fc1) => ⟨Outcome.error m, made, fc1⟩
  | (Outcome.ok plan, fc1) =>
    if plan.adds.length = 0 ∧ plan.removes.length = 0 then ⟨Outcome.ok (), made, fc1⟩
    else
      let a := if !opt.DryRun then addPermissions remote fc1 made plan.adds
        else (Outcome.ok (), made)
      match a.1 with
      | Outcome.panic m => ⟨Outcome.panic m, a.2, fc1⟩
      | Outcome.error m => ⟨Outcome.error m, a.2, fc1⟩
      | Outcome.ok _ =>
        let r := if !opt.DryRun then removePermissions remote fc1 a.2 plan.removes
          else (Outcome.ok (), a.2)
        ⟨r.1, r.2, fc1⟩

/-- The end of a create or update call (lines 277-281, 295-299): the error wrapped, or
the dereference of the returned `FunctionUrl`. -/
def endOfConfigCall (what : String) (reply : Reply) (calls : List Call) (fc : FunctionURL) : Run :=
  match reply.err with
  | some e => ⟨Outcome.error (what ++ e.message), calls, fc⟩
  | none =>
    match reply.FunctionUrl with
    | none => ⟨Outcome.panic "invalid memory address or nil pointer dereference", calls, fc⟩
    | some _ => ⟨Outcome.ok (), calls, fc⟩

/-- The method `deployFunctionURLConfig`, given what `GetFunctionUrlConfig` returned (the
response and the error, none for nil) and the calls made before. -/
def deployFunctionURLConfig (remote : Remote) (res : Option GetFunctionUrlConfigOutput)
    (err : Option RemoteError) (fc : FunctionURL) (opt : DeployOption) (made : List Call) : Run :=
  match fc.Config with
  | none => ⟨Outcome.panic "invalid memory address or nil pointer dereference", made, fc⟩
  | some c =>
    match c.FunctionName with
    | none => ⟨Outcome.panic "invalid memory address or nil pointer dereference", made, fc⟩
    | some _ =>
      let create := match err with
        | some e => e.notFound
        | none => false
      let failed := match err with
        | some e => if e.notFound then none else some e.message
        | none => none
      match failed with
      | some m => ⟨Outcome.error ("failed to get function url config: " ++ m), made, fc⟩
      | none =>
        if opt.DryRun then ⟨Outcome.ok (), made, fc⟩
        else if create then
          endOfConfigCall "failed to create function url config: "
            (remote made (Call.CreateFunctionUrlConfig c))
            (made ++ [Call.CreateFunctionUrlConfig c]) fc
        else
          match res with
          | none => ⟨Outcome.panic "invalid memory address or nil pointer dereference", made, fc⟩
          | some functionUrlConfig =>
            let c1 : FunctionURLConfig :=
              if functionUrlConfig.Cors ≠ none ∧ c.Cors = none then { c with Cors := some {} }
              else c
            let input : UpdateFunctionUrlConfigInput :=
              { FunctionName := c1.FunctionName, Qualifier := c1.Qualifier,
                AuthType := c1.AuthType, Cors := c1.Cors, InvokeMode := c1.InvokeMode }
            endOfConfigCall "failed to update function url config: "
              (remote made (Call.UpdateFunctionUrlConfig input))
              (made ++ [Call.UpdateFunctionUrlConfig input]) { fc with Config := some c1 }

/-- The method `deployFunctionURL`: the configuration, then the permissions. -/
def deployFunctionURL (remote : Remote) (urlRes : Option GetFunctionUrlConfigOutput)
    (urlErr : Option RemoteError) (res : Option GetPolicyOutput) (err : Option RemoteError)
    (fc : FunctionURL) (opt : DeployOption) : Run :=
  match deployFunctionURLConfig remote urlRes urlErr fc opt [] with
  | ⟨Outcome.panic m, calls, fc1⟩ => ⟨Outcome.panic m, calls, fc1⟩
  | ⟨Outcome.error m, calls, fc1⟩ =>
    ⟨Outcome.error ("failed to deploy function url config: " ++ m), calls, fc1⟩
  | ⟨Outcome.ok _, calls, fc1⟩ =>
    match deployFunctionURLPermissions remote res err fc1 opt calls with
    | ⟨Outcome.error m, calls2, fc2⟩ =>
      ⟨Outcome.error ("failed to deploy function url permissions: " ++ m), calls2, fc2⟩
    | other => other

end Lambroll

/-! ## Archive builder: `createZipArchive`, `addToZip`, `followSymlink`

The file system, the path functions of `path/filepath`, the pattern matcher
`wildcard.Match` and the fallible steps of the zip writer are collected in a `Host`;
the statements hold for every one. -/

namespace Lambroll

/-- The interface `fs.FileInfo`, the parts read here: `IsSymlink` stands for
`Mode()&fs.ModeSymlink != 0`. -/
structure FileInfo where
  Name : String
  IsDir : Bool := false
  IsSymlink : Bool := false
  Size : Nat := 0
deriving DecidableEq, Repr

/-- The interface `fs.DirEntry`: `Info` is what the call `Info()` returns. -/
structure DirEntry where
  Name : String
  IsDir : Bool
  Info : Except String FileInfo

/-- An entry written to the archive: the header name, the file information the header
was made from, the method, and the bytes the reader offers. -/
structure ZipEntry where
  Name : String
  Info : FileInfo
  Method : Nat
  Content : List Nat
deriving DecidableEq, Repr

/-- The constant `zip.Deflate`. -/
def zipDeflate : Nat := 8

/-- Everything outside the source that the archive builder calls. -/
structure Host where
  /-- The function `wildcard.Match(pattern, path)` of the package `wildcard`. -/
  wildcardMatch : String → String → Bool
  /-- The call `filepath.Join(dir, name)`. -/
  Join : String → String → String
  /-- The call `filepath.Dir(path)`. -/
  Dir : String → String
  /-- The call `filepath.Rel(base, path)`, its error dropped. -/
  Rel : String → String → String
  /-- The call `os.Readlink(path)`. -/
  Readlink : String → Except String String
  /-- The call `os.Stat(path)`. -/
  Stat : String → Except String FileInfo
  /-- The call `os.Open(path)`: the bytes of the file. -/
  Open : String → Except String (List Nat)
  /-- The error of `zip.FileInfoHeader(info)`, none for nil. -/
  FileInfoHeader : FileInfo → Option String
  /-- The error of `z.CreateHeader(header)`, given the entries already written and the
  header name. -/
  CreateHeader : List ZipEntry → String → Option String
  /-- The error of `io.Copy(w, reader)` into the entry of the given name. -/
  Copy : String → Option String
  /-- The error of `w.Close()`. -/
  Close : List ZipEntry → Option String
  /-- The error of `os.CreateTemp`. -/
  CreateTemp : Option String

mutual
/-- A file tree as `filepath.WalkDir` reads it: a non-directory entry with what its
`Info()` returns, or a directory with its entries in the order `os.ReadDir` lists them
and the error of `os.ReadDir`, if any. -/
inductive Tree where
  | file (name : String) (info : Except String FileInfo)
  | dir (name : String) (info : Except String FileInfo) (children : Forest)
      (readErr : Option String)
/-- The entries of a directory. -/
inductive Forest where
  | nil
  | cons (head : Tree) (tail : Forest)
end

/-- The name of the root entry of a tree. -/
def Tree.name : Tree → String
  | Tree.file name _ => name
  | Tree.dir name _ _ _ => name

/-- What `os.Lstat` of the walk root finds: an error, or a tree. -/
inductive Source where
  | missing (err : String)
  | present (tree : Tree)

/-- One call of the walk function by `filepath.WalkDir`: with an entry and no error, or
with an error (and the entry, nil when the root could not be read). -/
inductive Visit where
  | entry (path : String) (d : DirEntry)
  | failed (path : String) (d : Option DirEntry) (err : String)

mutual
/-- The calls `walkDir` makes for a tree at `path` when every call returns nil: the
entry itself, then, for a directory, the report of the `ReadDir` error if any, and the
entries below it. -/
def walkTree (sys : Host) (path : String) : Tree → List Visit
  | Tree.file name info => [Visit.entry path ⟨name, false, info⟩]
  | Tree.dir name info children readErr =>
    Visit.entry path ⟨name, true, info⟩ ::
      ((match readErr with
        | some e => [Visit.failed path (some ⟨name, true, info⟩) e]
        | none => []) ++ walkForest sys path children)
/-- The calls for the entries of the directory at `dirPath`, in order. -/
def walkForest (sys : Host) (dirPath : String) : Forest → List Visit
  | Forest.nil => []
  | Forest.cons head tail =>
    walkTree sys (sys.Join dirPath head.name) head ++ walkForest sys dirPath tail
end

/-- The calls `filepath.WalkDir(src, fn)` makes when every call returns nil. -/
def walkDir (sys : Host) (src : String) : Source → List Visit
  | Source.missing err => [Visit.failed src none err]
  | Source.present tree => walkTree sys src tree

/-- The function `matchExcludes`. -/
def matchExcludes (sys : Host) (path : String) : List String → Bool
  | [] => false
  | pattern :: excludes =>
    if sys.wildcardMatch pattern path then true else matchExcludes sys path excludes

/-- The function `followSymlink`. -/
def followSymlink (sys : Host) (path : String) : Except String (String × FileInfo) :=
  match sys.Readlink path with
  | Except.error err => Except.error ("failed to read symlink " ++ path ++ ": " ++ err)
  | Except.ok link =>
    let linkTarget := sys.Join (sys.Dir path) link
    match sys.Stat linkTarget with
    | Except.error err =>
      Except.error ("failed to stat symlink target " ++ linkTarget ++ ": " ++ err)
    | Except.ok info =>
      if info.IsDir then Except.error ("symlink target is a directory " ++ linkTarget)
      else Except.ok (linkTarget, info)

/-- Lines 162-190 of `addToZip`: the reader is opened unless one is given, the header is
made from `info`, named `relpath`, and created, and the content is copied. Returns the
entries of the archive and the error (none for nil). -/
def writeEntry (sys : Host) (z : List ZipEntry) (path relpath : String) (info : FileInfo)
    (reader : Option (List Nat)) : List ZipEntry × Option String :=
  match (match reader with
    | some content => Except.ok content
    | none => sys.Open path) with
  | Except.error err => (z, some err)
  | Except.ok content =>
    match sys.FileInfoHeader info with
    | some err => (z, some err)
    | none =>
      match sys.CreateHeader z relpath with
      | some err => (z, some err)
      | none => (z ++ [⟨relpath, info, zipDeflate, content⟩], sys.Copy relpath)

/-- The function `addToZip`: the entries of the archive after the call and the error
returned (none for nil). -/
def addToZip (sys : Host) (z : List ZipEntry) (path relpath : String) (entry : DirEntry)
    (keepSymlink : Bool) : List ZipEntry × Option String :=
  match entry.Info with
  | Except.error err => (z, some err)
  | Except.ok info =>
    if info.IsSymlink then
      if keepSymlink then
        match sys.Readlink path with
        | Except.error err => (z, some ("failed to read symlink " ++ path ++ ": " ++ err))
        | Except.ok link => writeEntry sys z path relpath info (some (stringBytes link))
      else
        match followSymlink sys path with
        | Except.error _ => (z, none)
        | Except.ok (linkTarget, targetInfo) => writeEntry sys z linkTarget relpath targetInfo none
    else writeEntry sys z path relpath info none

/-- The walk function of `createZipArchive` (lines 87-103) on one call. An entry is
always given when the error is nil. -/
def walkFn (sys : Host) (src : String) (excludes : List String) (keepSymlink : Bool)
    (z : List ZipEntry) : Visit → List ZipEntry × Option String
  | Visit.failed _ _ err => (z, some err)
  | Visit.entry path info =>
    if info.IsDir then (z, none)
    else if matchExcludes sys (sys.Rel src path) excludes then (z, none)
    else addToZip sys z path (sys.Rel src path) info keepSymlink

/-- The walk: the calls in order, until one returns an error, which the walk returns. -/
def walkAll (sys : Host) (src : String) (excludes : List String) (keepSymlink : Bool) :
    List ZipEntry → List Visit → List ZipEntry × Option String
  | z, [] => (z, none)
  | z, v :: vs =>
    match (walkFn sys src excludes keepSymlink z v).2 with
    | some err => ((walkFn sys src excludes keepSymlink z v).1, some err)
    | none => walkAll sys src excludes keepSymlink (walkFn sys src excludes keepSymlink z v).1 vs

/-- What `createZipArchive` returns: the archive file (none for nil) as the list of its
entries, and the error (none for nil). The file is returned next to the error of the
walk. -/
structure Archive where
  file : Option (List ZipEntry)
  err : Option String
deriving DecidableEq, Repr

/-- The function `createZipArchive`. -/
def createZipArchive (sys : Host) (src : String) (source : Source) (excludes : List String)
    (keepSymlink : Bool) : Archive :=
  match sys.CreateTemp with
  | some err => ⟨none, some ("failed to open tempFile: " ++ err)⟩
  | none =>
    let w := walkAll sys src excludes keepSymlink [] (walkDir sys src source)
    match sys.Close w.1 with
    | some err => ⟨none, some ("failed to create zip archive: " ++ err)⟩
    | none => ⟨some w.1, w.2⟩

/-! ## Jsonnet native functions: `DefaultJsonnetNativeFuncs` -/

/-- The process environment: `os.LookupEnv`, none for a variable that is not set. -/
abbrev Environ := String → Option String

/-- The call `os.Getenv`: the value, empty for a variable that is not set. -/
def osGetenv (environ : Environ) (key : String) : String :=
  match environ key with
  | some v => v
  | none => ""

/-- The native function `env` (lines 16-25): the value returned, an error, or the panic
of an index out of range. -/
def DefaultJsonnetNativeFuncs.env (environ : Environ) (args : List JSONValue) : Outcome JSONValue :=
  match args with
  | [] => Outcome.panic "index out of range [0] with length 0"
  | JSONValue.string key :: rest =>
    if osGetenv environ key ≠ "" then Outcome.ok (JSONValue.string (osGetenv environ key))
    else
      match rest with
      | [] => Outcome.panic "index out of range [1] with length 1"
      | dflt :: _ => Outcome.ok dflt
  | _ :: _ => Outcome.error "env: name must be a string"

/-- The native function `must_env` (lines 30-39). -/
def DefaultJsonnetNativeFuncs.must_env (environ : Environ) (args : List JSONValue) :
    Outcome JSONValue :=
  match args with
  | [] => Outcome.panic "index out of range [0] with length 0"
  | JSONValue.string key :: _ =>
    match environ key with
    | some v => Outcome.ok (JSONValue.string v)
    | none => Outcome.error ("must_env: " ++ key ++ " is not set")
  | _ :: _ => Outcome.error "must_env: name must be a string"

end Lambroll

/-! ## Vocabulary of the statements -/

namespace Lambroll

/-- The identifiers of a list of permissions, in list order. -/
def sidList (ps : FunctionURLPermissions) : List String :=
  ps.map fun p => p.Sid.1

/-- The permissions as one call of `Sid` on each leaves them. -/
def settle (ps : FunctionURLPermissions) : FunctionURLPermissions :=
  ps.map fun p => p.Sid.2

/-- Permissions on which `Sid` writes nothing: the identifier is already held. -/
def Settled (ps : FunctionURLPermissions) : Prop :=
  ∀ p ∈ ps, p.Sid.2 = p

/-- The first permission of the list whose identifier is `sid`. -/
def firstWithSid (ps : FunctionURLPermissions) (sid : String) : Option FunctionURLPermission :=
  ps.find? fun p => decide (p.Sid.1 = sid)

/-- The plan in closed form: for each identifier of the one list that the other lacks,
the first permission carrying it. -/
def planOf (D L : FunctionURLPermissions) : Plan :=
  ⟨(loDifference (sidList L) (sortStrings (sidList D))).2.filterMap (firstWithSid (settle D)),
   (loDifference (sidList L) (sortStrings (sidList D))).1.filterMap (firstWithSid (settle L))⟩

/-- The test of line 395: the statement grants `lambda:InvokeFunctionUrl`. -/
def isFunctionURLGrant (s : PolicyStatement) : Bool :=
  decide (s.Action = "lambda:InvokeFunctionUrl" ∧ s.Effect = "Allow")

/-- The statement `s` is the record of the request that `AddPermissionInput` builds for
`p`: its Sid is the StatementId sent, its Action the Action sent, its Effect `Allow`. -/
def Records (fc : FunctionURL) (p : FunctionURLPermission) (s : PolicyStatement) : Prop :=
  ∃ input p1, fc.AddPermissionInput p = Outcome.ok (input, p1) ∧
    input.StatementId = some s.Sid ∧ input.Action = some s.Action ∧ s.Effect = "Allow"

/-- The live statements once a plan is applied: every statement whose Sid is the
StatementId of a removal is deleted, and the recorded additions are appended. -/
def appliedStatements (statements : List PolicyStatement) (removes : FunctionURLPermissions)
    (added : List PolicyStatement) : List PolicyStatement :=
  statements.filter (fun s => !(removes.map fun p => p.StatementId).contains (some s.Sid)) ++ added

/-- The identifiers returned by `k` successive calls of `Sid`, and the permission as the
last call leaves it. -/
def sidCalls : Nat → FunctionURLPermission → List String × FunctionURLPermission
  | 0, p => ([], p)
  | k + 1, p => (p.Sid.1 :: (sidCalls k p.Sid.2).1, (sidCalls k p.Sid.2).2)

/-- Modelled from the spec: the permission file written by `initFunctionURL` (through
`marshalJSON` and `saveFile`) and read back (through `loadDefinitionFile`) is not in the
source at hand; as the spec has it, the file mirrors the shape consumed by the
reconciler, so a permission read back holds the exported members that were written,
and its unexported members, the cached `sid` and the guard, are fresh. -/
def rereadPermission (p : FunctionURLPermission) : FunctionURLPermission :=
  { p with sid := "", once := false }

/-- The `AddPermission` call that `deployFunctionURLPermissions` makes for a permission,
with the configuration `c`. -/
def addCallOf (c : FunctionURLConfig) (p : FunctionURLPermission) : Call :=
  Call.AddPermission
    { Action := some "lambda:InvokeFunctionUrl"
      FunctionName := c.FunctionName
      Qualifier := c.Qualifier
      FunctionUrlAuthType := c.AuthType
      StatementId := some p.Sid.1
      Principal := p.Principal
      PrincipalOrgID := p.PrincipalOrgID
      SourceArn := p.SourceArn
      SourceAccount := p.SourceAccount }

/-- The `RemovePermission` call made for a permission, with the configuration `c`. -/
def removeCallOf (c : FunctionURLConfig) (p : FunctionURLPermission) : Call :=
  Call.RemovePermission
    { FunctionName := c.FunctionName, Qualifier := c.Qualifier, StatementId := p.StatementId }

/-- The calls a plan asks for: one add-grant per addition, in plan order, then one
remove-grant per removal, in plan order. -/
def plannedCalls (c : FunctionURLConfig) (plan : Plan) : List Call :=
  plan.adds.map (addCallOf c) ++ plan.removes.map (removeCallOf c)

/-- Every call of the list, made in order after the calls `made`, returns no error. -/
def AllSucceed (remote : Remote) (made calls : List Call) : Prop :=
  ∀ pre call post, calls = pre ++ call :: post → (remote (made ++ pre) call).err = none

/-- The text that wraps the error of a failed call. -/
def failureText : Call → String
  | Call.AddPermission _ => "failed to add permission: "
  | Call.RemovePermission _ => "failed to remove permission: "
  | Call.CreateFunctionUrlConfig _ => "failed to create function url config: "
  | Call.UpdateFunctionUrlConfig _ => "failed to update function url config: "

/-- The calls made when the calls of a list are issued in order until one fails, and
that first failure if any. -/
def issue (remote : Remote) : List Call → List Call → List Call × Option (Call × RemoteError)
  | made, [] => (made, none)
  | made, call :: rest =>
    match (remote made call).err with
    | some e => (made ++ [call], some (call, e))
    | none => issue remote (made ++ [call]) rest

/-- The outcome that goes with the result of `issue`. -/
def outcomeOfIssue : Option (Call × RemoteError) → Outcome Unit
  | none => Outcome.ok ()
  | some (call, e) => Outcome.error (failureText call ++ e.message)

/-! ### Sample inputs -/

/-- A live statement granting `lambda:InvokeFunctionUrl` under the identifier `sid`. -/
def allowStatement (sid : String) : PolicyStatement :=
  { Sid := sid, Effect := "Allow", Action := "lambda:InvokeFunctionUrl",
    Principal := JSONValue.string "*" }

/-- A desired permission with the explicit identifier `sid` and principal `principal`. -/
def explicitPermission (sid principal : String) : FunctionURLPermission :=
  { StatementId := some sid, Principal := some principal }

/-- A validated definition with the given desired permissions. -/
def definitionWith (ps : FunctionURLPermissions) : FunctionURL :=
  { Config := some { AuthType := "NONE", FunctionName := some "hello" }, Permissions := ps }

/-- A `GetPolicy` response whose document holds the given statements. -/
def policyWith (statements : List PolicyStatement) : GetPolicyOutput :=
  ⟨Except.ok { Statement := statements }⟩

/-- A desired permission without identifier: principal `*`. -/
def wildcardPermission : FunctionURLPermission :=
  { Principal := some "*" }

/-- The same grant restricted to one source account. -/
def accountPermission : FunctionURLPermission :=
  { Principal := some "*", SourceAccount := some "123456789012" }

/-- A live policy with a grant on another action, a function URL grant `A`, and a
function URL denial. -/
def mixedStatements : List PolicyStatement :=
  [{ Sid := "invoke", Effect := "Allow", Action := "lambda:InvokeFunction",
     Principal := JSONValue.object [("Service", JSONValue.string "events.amazonaws.com")] },
   allowStatement "A",
   { Sid := "deny", Effect := "Deny", Action := "lambda:InvokeFunctionUrl",
     Principal := JSONValue.string "*" }]

/-- A function URL grant to an organization, the condition keys as given. -/
def orgStatement (authTypeKey orgKey : String) : PolicyStatement :=
  { Sid := "org", Effect := "Allow", Action := "lambda:InvokeFunctionUrl",
    Principal := JSONValue.string "*",
    Condition := JSONValue.object
      [("StringEquals", JSONValue.object
        [(authTypeKey, JSONValue.string "AWS_IAM"), (orgKey, JSONValue.string "o-a1b2c3d4e5")])] }

/-- A function URL grant restricted to a source ARN, the condition key as given. -/
def sourceArnStatement (key : String) : PolicyStatement :=
  { Sid := "src", Effect := "Allow", Action := "lambda:InvokeFunctionUrl",
    Principal := JSONValue.object [("Service", JSONValue.string "events.amazonaws.com")],
    Condition := JSONValue.object
      [("ArnLike", JSONValue.object
        [(key, JSONValue.string "arn:aws:events:us-east-1:123456789012:rule/r")])] }

/-- A file information for a regular file. -/
def regularInfo (name : String) : FileInfo :=
  { Name := name }

/-- A file information for a symbolic link. -/
def symlinkInfo (name : String) : FileInfo :=
  { Name := name, IsSymlink := true }

/-- The directory part of a slash-separated path. -/
def sampleDir (path : String) : String :=
  String.mk ((path.data.reverse.dropWhile fun c => c ≠ '/').drop 1).reverse

/-- The path below `base`, `.` for `base` itself. -/
def sampleRel (base path : String) : String :=
  if path = base then "." else String.mk (path.data.drop (base.data.length + 1))

/-- A host holding the tree of the test `test/src`: the regular files `dir/sub.txt`,
`ext-hello.txt`, `hello.txt`, `index.js` and `world`, the link `hello.symlink` to
`hello.txt` and the link `dir.symlink` to `dir`. The files listed in `unreadable` cannot
be opened; nothing else fails. -/
def sampleHost (unreadable : List String) : Host where
  wildcardMatch := fun pattern path => pattern = path
  Join := fun dir name => dir ++ "/" ++ name
  Dir := sampleDir
  Rel := sampleRel
  Readlink := fun path =>
    if path = "test/src/hello.symlink" then Except.ok "hello.txt"
    else if path = "test/src/dir.symlink" then Except.ok "dir"
    else Except.error "invalid argument"
  Stat := fun path =>
    if path = "test/src/dir" then Except.ok { Name := "dir", IsDir := true }
    else if path = "test/src/hello.txt" then Except.ok (regularInfo "hello.txt")
    else Except.error "no such file or directory"
  Open := fun path =>
    if unreadable.contains path then Except.error "permission denied"
    else Except.ok (stringBytes path)
  FileInfoHeader := fun _ => none
  CreateHeader := fun _ _ => none
  Copy := fun _ => none
  Close := fun _ => none
  CreateTemp := none

/-- The tree of the test `test/src`, entries in the order `os.ReadDir` lists them. -/
def sampleTree : Tree :=
  Tree.dir "src" (Except.ok { Name := "src", IsDir := true })
    (Forest.cons (Tree.dir "dir" (Except.ok { Name := "dir", IsDir := true })
        (Forest.cons (Tree.file "sub.txt" (Except.ok (regularInfo "sub.txt"))) Forest.nil) none)
    (Forest.cons (Tree.file "dir.symlink" (Except.ok (symlinkInfo "dir.symlink")))
    (Forest.cons (Tree.file "ext-hello.txt" (Except.ok (regularInfo "ext-hello.txt")))
    (Forest.cons (Tree.file "hello.symlink" (Except.ok (symlinkInfo "hello.symlink")))
    (Forest.cons (Tree.file "hello.txt" (Except.ok (regularInfo "hello.txt")))
    (Forest.cons (Tree.file "index.js" (Except.ok (regularInfo "index.js")))
    (Forest.cons (Tree.file "world" (Except.ok (regularInfo "world"))) Forest.nil)))))))
    none

/-- The names of the entries of an archive, in the order written. -/
def entryNames (a : Archive) : Option (List String) :=
  a.file.map fun entries => entries.map fun e => e.Name

/-- A remote side that refuses every `RemovePermission` call and accepts the others. -/
def refusingRemovals : Remote := fun _ call =>
  match call with
  | Call.RemovePermission _ => { err := some ⟨false, "access denied"⟩ }
  | _ => { FunctionUrl := some "https://example.lambda-url.on.aws/" }

/-- The entry of the link `hello.symlink` as the walk gives it. -/
def helloSymlinkEntry : DirEntry :=
  ⟨"hello.symlink", false, Except.ok (symlinkInfo "hello.symlink")⟩

end Lambroll

/-! ## Lemmas -/

namespace Lambroll

theorem insertString_perm (s : String) (l : List String) : (insertString s l).Perm (s :: l) := by
  induction l with
  | nil => exact List.Perm.refl _
  | cons t ts ih =>
    unfold insertString
    split
    · exact List.Perm.refl _
    · exact (List.Perm.cons t ih).trans (List.Perm.swap s t ts)

theorem sortStrings_perm (l : List String) : (sortStrings l).Perm l := by
  induction l with
  | nil => exact List.Perm.refl _
  | cons s ss ih => exact (insertString_perm s _).trans (List.Perm.cons s ih)

theorem mem_sortStrings (x : String) (l : List String) : x ∈ sortStrings l ↔ x ∈ l :=
  (sortStrings_perm l).mem_iff

theorem SidFormat_ne_empty (d : List Nat) : SidFormat d ≠ "" := by
  intro h
  have := congrArg String.data h
  simp [SidFormat] at this

theorem derivedSid_ne_empty (p : FunctionURLPermission) : derivedSid p ≠ "" :=
  SidFormat_ne_empty _

/-- A second call of `Sid` returns the same identifier and changes nothing more. -/
theorem Sid_Sid (p : FunctionURLPermission) : p.Sid.2.Sid = p.Sid := by
  unfold FunctionURLPermission.Sid
  by_cases h1 : p.sid ≠ ""
  · simp [h1]
  · simp only [h1, if_false]
    cases h2 : p.StatementId with
    | some s => simp [h1, h2]
    | none =>
      by_cases h3 : p.once = true
      · simp [h1, h2, h3]
      · simp [h1, h2, h3, derivedSid_ne_empty]


theorem sidsOf_fst (ps : FunctionURLPermissions) : (sidsOf ps).1 = sidList ps := by
  induction ps with
  | nil => rfl
  | cons p ps ih => simp [sidsOf, ih, sidList]

theorem sidsOf_snd (ps : FunctionURLPermissions) : (sidsOf ps).2 = settle ps := by
  induction ps with
  | nil => rfl
  | cons p ps ih => simp [sidsOf, ih, settle]

theorem settled_settle (ps : FunctionURLPermissions) : Settled (settle ps) := by
  intro p hp
  obtain ⟨q, _, rfl⟩ := List.mem_map.1 hp
  rw [Sid_Sid]

theorem sidList_settle (ps : FunctionURLPermissions) : sidList (settle ps) = sidList ps := by
  simp [sidList, settle, List.map_map, Function.comp_def, Sid_Sid]

theorem settle_of_settled (ps : FunctionURLPermissions) (h : Settled ps) : settle ps = ps := by
  induction ps with
  | nil => rfl
  | cons p ps ih =>
    simp only [settle, List.map_cons]
    rw [h p (List.mem_cons_self _ _)]
    exact congrArg (p :: ·) (ih fun q hq => h q (List.mem_cons_of_mem _ hq))

theorem Find_settled (ps : FunctionURLPermissions) (h : Settled ps) (sid : String) :
    FunctionURLPermissions.Find ps sid = (firstWithSid ps sid, ps) := by
  induction ps with
  | nil => rfl
  | cons p ps ih =>
    have hp : p.Sid.2 = p := h p (List.mem_cons_self _ _)
    have ih1 := ih (fun q hq => h q (List.mem_cons_of_mem _ hq))
    unfold FunctionURLPermissions.Find
    by_cases e : p.Sid.1 = sid
    · simp [e, hp, firstWithSid, List.find?_cons]
    · simp [e, hp, ih1, firstWithSid, List.find?_cons]

theorem firstWithSid_isSome (ps : FunctionURLPermissions) (sid : String)
    (h : sid ∈ sidList ps) : ∃ p, firstWithSid ps sid = some p := by
  obtain ⟨q, hq, rfl⟩ := List.mem_map.1 h
  cases e : firstWithSid ps q.Sid.1 with
  | some p => exact ⟨p, rfl⟩
  | none =>
    have := List.find?_eq_none.1 e q hq
    simp at this

theorem firstWithSid_some (ps : FunctionURLPermissions) (sid : String) (p : FunctionURLPermission)
    (h : firstWithSid ps sid = some p) : p ∈ ps ∧ p.Sid.1 = sid := by
  refine ⟨List.mem_of_find?_eq_some h, ?_⟩
  have := List.find?_some h
  simpa using this

theorem findAll_settled (what : String) (ps : FunctionURLPermissions) (h : Settled ps)
    (sids : List String) (hs : ∀ s ∈ sids, s ∈ sidList ps) :
    findAll what ps sids = (Outcome.ok (sids.filterMap (firstWithSid ps)), ps) := by
  induction sids with
  | nil => rfl
  | cons s sids ih =>
    obtain ⟨p, hp⟩ := firstWithSid_isSome ps s (hs s (List.mem_cons_self _ _))
    have ih1 := ih (fun t ht => hs t (List.mem_cons_of_mem _ ht))
    unfold findAll
    simp [Find_settled ps h, hp, ih1, List.filterMap_cons]

theorem loDifference_fst_sub (a b : List String) : ∀ s ∈ (loDifference a b).1, s ∈ a := by
  intro s hs
  exact (List.mem_filter.1 hs).1

theorem loDifference_snd_sub (a b : List String) : ∀ s ∈ (loDifference a b).2, s ∈ b := by
  intro s hs
  exact (List.mem_filter.1 hs).1

/-- With the configuration and the function name set and the live policy read, the
computation ends without error or panic with the plan in closed form, and leaves the
desired permissions settled. -/
theorem calc_eq (res : Option GetPolicyOutput) (err : Option RemoteError) (fc : FunctionURL)
    (c : FunctionURLConfig) (n : String) (L : FunctionURLPermissions)
    (hc : fc.Config = some c) (hn : c.FunctionName = some n)
    (hL : getFunctionURLPermissions res err = Except.ok L) :
    calcFunctionURLPermissionsDiff res err fc =
      (Outcome.ok (planOf fc.Permissions L), { fc with Permissions := settle fc.Permissions }) := by
  have ha := findAll_settled "permission not found for adding: " (settle fc.Permissions)
    (settled_settle _) (loDifference (sidList L) (sortStrings (sidList fc.Permissions))).2
    (fun s hs => by
      rw [sidList_settle]
      exact (mem_sortStrings _ _).1 (loDifference_snd_sub _ _ s hs))
  have hr := findAll_settled "permission not found for removal: " (settle L)
    (settled_settle _) (loDifference (sidList L) (sortStrings (sidList fc.Permissions))).1
    (fun s hs => by
      rw [sidList_settle]
      exact loDifference_fst_sub _ _ s hs)
  unfold calcFunctionURLPermissionsDiff
  simp only [hc, hn, hL, FunctionURLPermissions.Sids, sidsOf_fst, sidsOf_snd, ha, hr]
  split
  · rename_i h
    have h1 := List.length_eq_zero.1 h.1
    have h2 := List.length_eq_zero.1 h.2
    simp [planOf, h1, h2]
  · simp [planOf]

theorem permissionOfStatement_Sid (s : PolicyStatement) :
    (permissionOfStatement s).Sid = (s.Sid, permissionOfStatement s) := by
  unfold FunctionURLPermission.Sid
  by_cases h : s.Sid = ""
  · simp [permissionOfStatement, h]
  · simp [permissionOfStatement, h]

theorem settled_permissionsOfStatements (l : List PolicyStatement) :
    Settled (permissionsOfStatements l) := by
  induction l with
  | nil => intro p hp; cases hp
  | cons s rest ih =>
    unfold permissionsOfStatements
    split
    · exact ih
    · intro p hp
      rcases List.mem_cons.1 hp with rfl | hp
      · rw [permissionOfStatement_Sid]
      · exact ih p hp

theorem settled_permissionsOfResponse (res : Option GetPolicyOutput) (L : FunctionURLPermissions)
    (h : permissionsOfResponse res = Except.ok L) : Settled L := by
  unfold permissionsOfResponse at h
  split at h
  · cases h; intro p hp; cases hp
  · split at h
    · cases h
    · cases h; exact settled_permissionsOfStatements _

/-- What `getFunctionURLPermissions` returns is settled: each permission holds its
identifier. -/
theorem settled_getFunctionURLPermissions (res : Option GetPolicyOutput) (err : Option RemoteError)
    (L : FunctionURLPermissions) (h : getFunctionURLPermissions res err = Except.ok L) :
    Settled L := by
  unfold getFunctionURLPermissions at h
  split at h
  · split at h
    · exact settled_permissionsOfResponse res L h
    · cases h
  · exact settled_permissionsOfResponse res L h

theorem mem_loDifference_fst (a b : List String) (s : String) :
    s ∈ (loDifference a b).1 ↔ s ∈ a ∧ s ∉ b := by
  simp [loDifference, List.mem_filter]

theorem mem_loDifference_snd (a b : List String) (s : String) :
    s ∈ (loDifference a b).2 ↔ s ∈ b ∧ s ∉ a := by
  simp [loDifference, List.mem_filter]

/-- Membership in a list of first-carriers. -/
theorem mem_filterMap_firstWithSid (ps : FunctionURLPermissions) (sids : List String)
    (p : FunctionURLPermission) :
    p ∈ sids.filterMap (firstWithSid ps) ↔
      p ∈ ps ∧ p.Sid.1 ∈ sids ∧ firstWithSid ps p.Sid.1 = some p := by
  constructor
  · intro h
    obtain ⟨s, hs, hp⟩ := List.mem_filterMap.1 h
    obtain ⟨h1, h2⟩ := firstWithSid_some ps s p hp
    subst h2
    exact ⟨h1, hs, hp⟩
  · rintro ⟨_, h2, h3⟩
    exact List.mem_filterMap.2 ⟨_, h2, h3⟩

theorem mem_planOf_adds (D L : FunctionURLPermissions) (p : FunctionURLPermission) :
    p ∈ (planOf D L).adds ↔
      p ∈ settle D ∧ p.Sid.1 ∉ sidList L ∧ firstWithSid (settle D) p.Sid.1 = some p := by
  unfold planOf
  simp only [mem_filterMap_firstWithSid, mem_loDifference_snd, mem_sortStrings]
  constructor
  · rintro ⟨h1, ⟨_, h2⟩, h3⟩
    exact ⟨h1, h2, h3⟩
  · rintro ⟨h1, h2, h3⟩
    refine ⟨h1, ⟨?_, h2⟩, h3⟩
    rw [← sidList_settle]
    exact List.mem_map.2 ⟨p, h1, rfl⟩

theorem mem_planOf_removes (D L : FunctionURLPermissions) (hL : Settled L)
    (p : FunctionURLPermission) :
    p ∈ (planOf D L).removes ↔
      p ∈ L ∧ p.Sid.1 ∉ sidList D ∧ firstWithSid L p.Sid.1 = some p := by
  unfold planOf
  simp only [mem_filterMap_firstWithSid, mem_loDifference_fst, mem_sortStrings,
    settle_of_settled L hL]
  constructor
  · rintro ⟨h1, ⟨_, h2⟩, h3⟩
    exact ⟨h1, h2, h3⟩
  · rintro ⟨h1, h2, h3⟩
    exact ⟨h1, ⟨List.mem_map.2 ⟨p, h1, rfl⟩, h2⟩, h3⟩

theorem permissionsOfStatements_eq (l : List PolicyStatement) :
    permissionsOfStatements l = (l.filter isFunctionURLGrant).map permissionOfStatement := by
  induction l with
  | nil => rfl
  | cons s rest ih =>
    unfold permissionsOfStatements
    by_cases h : s.Action = "lambda:InvokeFunctionUrl" ∧ s.Effect = "Allow"
    · have h1 : ¬ (s.Action ≠ "lambda:InvokeFunctionUrl" ∨ s.Effect ≠ "Allow") := by
        simp [h.1, h.2]
      have h2 : isFunctionURLGrant s = true := by simp [isFunctionURLGrant, h.1, h.2]
      simp [h1, h2, ih, List.filter_cons]
    · have h1 : s.Action ≠ "lambda:InvokeFunctionUrl" ∨ s.Effect ≠ "Allow" := by
        by_cases a : s.Action = "lambda:InvokeFunctionUrl"
        · exact Or.inr fun e => h ⟨a, e⟩
        · exact Or.inl a
      have h2 : isFunctionURLGrant s = false := by simp [isFunctionURLGrant, h]
      simp [h1, h2, ih, List.filter_cons]

theorem sidList_permissionsOfStatements (l : List PolicyStatement) :
    sidList (permissionsOfStatements l) = (l.filter isFunctionURLGrant).map fun s => s.Sid := by
  simp [permissionsOfStatements_eq, sidList, List.map_map, Function.comp_def,
    permissionOfStatement_Sid]

theorem mem_sidList_permissionsOfStatements (l : List PolicyStatement) (x : String) :
    x ∈ sidList (permissionsOfStatements l) ↔ ∃ s ∈ l, isFunctionURLGrant s = true ∧ s.Sid = x := by
  simp [sidList_permissionsOfStatements, List.mem_map, List.mem_filter, and_assoc]

/-- A permission read from the live policy holds its identifier as StatementId. -/
theorem StatementId_of_mem_permissionsOfStatements (l : List PolicyStatement)
    (p : FunctionURLPermission) (h : p ∈ permissionsOfStatements l) :
    p.StatementId = some p.Sid.1 := by
  rw [permissionsOfStatements_eq] at h
  obtain ⟨s, _, rfl⟩ := List.mem_map.1 h
  rw [permissionOfStatement_Sid]
  rfl

theorem Records_iff (fc : FunctionURL) (c : FunctionURLConfig) (hc : fc.Config = some c)
    (p : FunctionURLPermission) (s : PolicyStatement) :
    Records fc p s ↔ s.Sid = p.Sid.1 ∧ s.Action = "lambda:InvokeFunctionUrl" ∧ s.Effect = "Allow" := by
  unfold Records FunctionURL.AddPermissionInput
  simp only [hc]
  constructor
  · rintro ⟨input, p1, h, h1, h2, h3⟩
    injection h with h
    injection h with ha hb
    subst ha
    simp at h1 h2
    exact ⟨h1.symm, h2.symm, h3⟩
  · rintro ⟨h1, h2, h3⟩
    exact ⟨_, _, rfl, by simp [h1], by simp [h2], h3⟩

theorem forall₂_left_mem {α β : Type} (R : α → β → Prop) (l1 : List α) (l2 : List β)
    (h : List.Forall₂ R l1 l2) : ∀ a ∈ l1, ∃ b ∈ l2, R a b := by
  induction h with
  | nil => intro a ha; cases ha
  | cons hab _ ih =>
    intro a ha
    rcases List.mem_cons.1 ha with rfl | ha
    · exact ⟨_, List.mem_cons_self _ _, hab⟩
    · obtain ⟨b, hb, hr⟩ := ih a ha
      exact ⟨b, List.mem_cons_of_mem _ hb, hr⟩

theorem forall₂_right_mem {α β : Type} (R : α → β → Prop) (l1 : List α) (l2 : List β)
    (h : List.Forall₂ R l1 l2) : ∀ b ∈ l2, ∃ a ∈ l1, R a b := by
  induction h with
  | nil => intro b hb; cases hb
  | cons hab _ ih =>
    intro b hb
    rcases List.mem_cons.1 hb with rfl | hb
    · exact ⟨_, List.mem_cons_self _ _, hab⟩
    · obtain ⟨a, ha, hr⟩ := ih b hb
      exact ⟨a, List.mem_cons_of_mem _ ha, hr⟩

theorem loDifference_eq_nil (a b : List String) (h1 : ∀ x ∈ a, x ∈ b) (h2 : ∀ x ∈ b, x ∈ a) :
    loDifference a b = ([], []) := by
  unfold loDifference
  have e1 : a.filter (fun x => !b.contains x) = [] := by
    rw [List.filter_eq_nil_iff]
    intro x hx
    simp [h1 x hx]
  have e2 : b.filter (fun x => !a.contains x) = [] := by
    rw [List.filter_eq_nil_iff]
    intro x hx
    simp [h2 x hx]
  rw [e1, e2]

theorem planOf_eq_nil (D L : FunctionURLPermissions) (h1 : ∀ x ∈ sidList L, x ∈ sidList D)
    (h2 : ∀ x ∈ sidList D, x ∈ sidList L) : planOf D L = ⟨[], []⟩ := by
  unfold planOf
  rw [loDifference_eq_nil _ _ (fun x hx => (mem_sortStrings _ _).2 (h1 x hx))
    (fun x hx => h2 x ((mem_sortStrings _ _).1 hx))]
  rfl

/-- The identifiers live after a plan is applied are the desired identifiers. -/
theorem sidList_applied (D : FunctionURLPermissions) (statements added : List PolicyStatement)
    (fc1 : FunctionURL) (c : FunctionURLConfig) (hc : fc1.Config = some c)
    (hadd : List.Forall₂ (Records fc1)
      (planOf D (permissionsOfStatements statements)).adds added) :
    (∀ x ∈ sidList (permissionsOfStatements (appliedStatements statements
        (planOf D (permissionsOfStatements statements)).removes added)), x ∈ sidList D) ∧
    (∀ x ∈ sidList D, x ∈ sidList (permissionsOfStatements (appliedStatements statements
        (planOf D (permissionsOfStatements statements)).removes added))) := by
  have hset := settled_permissionsOfStatements statements
  constructor
  · intro x hx
    obtain ⟨s, hs, hg, rfl⟩ := (mem_sidList_permissionsOfStatements _ _).1 hx
    rcases List.mem_append.1 hs with hs | hs
    · obtain ⟨hs1, hs2⟩ := List.mem_filter.1 hs
      by_contra hD
      have hL : s.Sid ∈ sidList (permissionsOfStatements statements) :=
        (mem_sidList_permissionsOfStatements _ _).2 ⟨s, hs1, hg, rfl⟩
      obtain ⟨p, hp⟩ := firstWithSid_isSome _ _ hL
      obtain ⟨hp1, hp2⟩ := firstWithSid_some _ _ _ hp
      have hrem : p ∈ (planOf D (permissionsOfStatements statements)).removes :=
        (mem_planOf_removes D _ hset p).2 ⟨hp1, by rw [hp2]; exact hD, by rw [hp2]; exact hp⟩
      have hid := StatementId_of_mem_permissionsOfStatements _ p hp1
      rw [hp2] at hid
      have : some s.Sid ∈ (planOf D (permissionsOfStatements statements)).removes.map
          fun p => p.StatementId := List.mem_map.2 ⟨p, hrem, hid⟩
      simp [this] at hs2
    · obtain ⟨p, hp, hr⟩ := forall₂_right_mem _ _ _ hadd s hs
      obtain ⟨h1, _, _⟩ := (Records_iff fc1 c hc p s).1 hr
      obtain ⟨hp1, _, _⟩ := (mem_planOf_adds D _ p).1 hp
      rw [h1, ← sidList_settle D]
      exact List.mem_map.2 ⟨p, hp1, rfl⟩
  · intro x hx
    by_cases hL : x ∈ sidList (permissionsOfStatements statements)
    · obtain ⟨s, hs, hg, rfl⟩ := (mem_sidList_permissionsOfStatements _ _).1 hL
      refine (mem_sidList_permissionsOfStatements _ _).2 ⟨s, ?_, hg, rfl⟩
      refine List.mem_append_left _ (List.mem_filter.2 ⟨hs, ?_⟩)
      have : some s.Sid ∉ (planOf D (permissionsOfStatements statements)).removes.map
          fun p => p.StatementId := by
        intro hm
        obtain ⟨p, hp, hid⟩ := List.mem_map.1 hm
        obtain ⟨hp1, hp2, _⟩ := (mem_planOf_removes D _ hset p).1 hp
        rw [StatementId_of_mem_permissionsOfStatements _ p hp1] at hid
        injection hid with hid
        exact hp2 (hid ▸ hx)
      simp [this]
    · have hx1 : x ∈ sidList (settle D) := by rw [sidList_settle]; exact hx
      obtain ⟨p, hp⟩ := firstWithSid_isSome _ _ hx1
      obtain ⟨hp1, hp2⟩ := firstWithSid_some _ _ _ hp
      have hadds : p ∈ (planOf D (permissionsOfStatements statements)).adds :=
        (mem_planOf_adds D _ p).2 ⟨hp1, by rw [hp2]; exact hL, by rw [hp2]; exact hp⟩
      obtain ⟨s, hs, hr⟩ := forall₂_left_mem _ _ _ hadd p hadds
      obtain ⟨h1, h2, h3⟩ := (Records_iff fc1 c hc p s).1 hr
      refine (mem_sidList_permissionsOfStatements _ _).2
        ⟨s, List.mem_append_right _ hs, ?_, by rw [h1, hp2]⟩
      simp [isFunctionURLGrant, h2, h3]

theorem sidList_filterMap_firstWithSid (ps : FunctionURLPermissions) (sids : List String)
    (hs : ∀ s ∈ sids, s ∈ sidList ps) : sidList (sids.filterMap (firstWithSid ps)) = sids := by
  induction sids with
  | nil => rfl
  | cons s sids ih =>
    obtain ⟨p, hp⟩ := firstWithSid_isSome ps s (hs s (List.mem_cons_self _ _))
    have ih1 := ih fun t ht => hs t (List.mem_cons_of_mem _ ht)
    have hp2 := (firstWithSid_some ps s p hp).2
    simp only [sidList] at ih1 ⊢
    simp [List.filterMap_cons, hp, ih1, hp2]

/-- The identifiers of the additions are the desired identifiers, sorted, that are not
live, with their repetitions. -/
theorem sidList_planOf_adds (D L : FunctionURLPermissions) :
    sidList (planOf D L).adds = (loDifference (sidList L) (sortStrings (sidList D))).2 := by
  unfold planOf
  apply sidList_filterMap_firstWithSid
  intro s hs
  rw [sidList_settle]
  exact (mem_sortStrings _ _).1 (loDifference_snd_sub _ _ s hs)

theorem count_sidList_planOf_adds (D L : FunctionURLPermissions) (s : String)
    (h : s ∉ sidList L) : (sidList (planOf D L).adds).count s = (sidList D).count s := by
  rw [sidList_planOf_adds]
  unfold loDifference
  rw [List.count_filter (by simpa using h)]
  exact (sortStrings_perm _).count_eq s

theorem Sid_fresh (p : FunctionURLPermission) (h : p.StatementId = none) (hs : p.sid = "")
    (ho : p.once = false) : p.Sid.1 = derivedSid p := by
  unfold FunctionURLPermission.Sid
  simp [h, hs, ho]

/-- What `getFunctionURLPermissions` returns is read from some list of statements. -/
theorem getFunctionURLPermissions_ok (res : Option GetPolicyOutput) (err : Option RemoteError)
    (L : FunctionURLPermissions) (h : getFunctionURLPermissions res err = Except.ok L) :
    ∃ statements, L = permissionsOfStatements statements := by
  have key : ∀ r : Option GetPolicyOutput, permissionsOfResponse r = Except.ok L →
      ∃ statements, L = permissionsOfStatements statements := by
    intro r hr
    unfold permissionsOfResponse at hr
    split at hr
    · cases hr; exact ⟨[], rfl⟩
    · split at hr
      · cases hr
      · cases hr; exact ⟨_, rfl⟩
  unfold getFunctionURLPermissions at h
  split at h
  · split at h
    · exact key res h
    · cases h
  · exact key res h

theorem rereadPermission_Sid (s : PolicyStatement) :
    (rereadPermission (permissionOfStatement s)).Sid =
      (s.Sid, rereadPermission (permissionOfStatement s)) := by
  unfold FunctionURLPermission.Sid
  simp [rereadPermission, permissionOfStatement]

theorem rereadPermission_Sid_of_mem (statements : List PolicyStatement)
    (p : FunctionURLPermission) (h : p ∈ permissionsOfStatements statements) :
    (rereadPermission p).Sid.1 = p.Sid.1 := by
  rw [permissionsOfStatements_eq] at h
  obtain ⟨s, _, rfl⟩ := List.mem_map.1 h
  rw [rereadPermission_Sid, permissionOfStatement_Sid]

theorem sidList_map_rereadPermission (statements : List PolicyStatement) :
    sidList ((permissionsOfStatements statements).map rereadPermission) =
      sidList (permissionsOfStatements statements) := by
  unfold sidList
  rw [List.map_map]
  apply List.map_congr_left
  intro p hp
  exact rereadPermission_Sid_of_mem statements p hp

theorem addPermissions_eq_issue (remote : Remote) (fc : FunctionURL) (c : FunctionURLConfig)
    (hc : fc.Config = some c) (ps : FunctionURLPermissions) (made : List Call) :
    addPermissions remote fc made ps =
      (outcomeOfIssue (issue remote made (ps.map (addCallOf c))).2,
       (issue remote made (ps.map (addCallOf c))).1) := by
  induction ps generalizing made with
  | nil => rfl
  | cons p ps ih =>
    simp only [addPermissions, FunctionURL.AddPermissionInput, hc, List.map_cons, issue]
    change (match (remote made (addCallOf c p)).err with
      | some e => _
      | none => _) = _
    cases h : (remote made (addCallOf c p)).err with
    | some e => simp [outcomeOfIssue, failureText, addCallOf]
    | none => exact ih _

theorem removePermissions_eq_issue (remote : Remote) (fc : FunctionURL) (c : FunctionURLConfig)
    (hc : fc.Config = some c) (ps : FunctionURLPermissions)
    (hid : ∀ p ∈ ps, p.StatementId ≠ none) (made : List Call) :
    removePermissions remote fc made ps =
      (outcomeOfIssue (issue remote made (ps.map (removeCallOf c))).2,
       (issue remote made (ps.map (removeCallOf c))).1) := by
  induction ps generalizing made with
  | nil => rfl
  | cons p ps ih =>
    have hp := hid p (List.mem_cons_self _ _)
    cases hs : p.StatementId with
    | none => exact absurd hs hp
    | some sid =>
      have hcall : removeCallOf c p = Call.RemovePermission
          { FunctionName := c.FunctionName, Qualifier := c.Qualifier, StatementId := some sid } := by
        simp [removeCallOf, hs]
      simp only [removePermissions, FunctionURL.RemovePermissionInput, hc, hs, List.map_cons,
        issue, hcall]
      cases h : (remote made (Call.RemovePermission
          { FunctionName := c.FunctionName, Qualifier := c.Qualifier,
            StatementId := some sid })).err with
      | some e => simp [outcomeOfIssue, failureText]
      | none =>
        simp only []
        rw [ih (fun q hq => hid q (List.mem_cons_of_mem _ hq))]

theorem issue_append (remote : Remote) (made a b : List Call) :
    issue remote made (a ++ b) =
      match (issue remote made a).2 with
      | none => issue remote (issue remote made a).1 b
      | some f => ((issue remote made a).1, some f) := by
  induction a generalizing made with
  | nil => rfl
  | cons call rest ih =>
    simp only [List.cons_append, issue]
    cases h : (remote made call).err with
    | some e => rfl
    | none => exact ih _

theorem AllSucceed_nil (remote : Remote) (made : List Call) : AllSucceed remote made [] := by
  intro pre call post h
  cases pre <;> cases h

theorem AllSucceed_cons (remote : Remote) (made : List Call) (call : Call) (rest : List Call)
    (h1 : (remote made call).err = none) (h2 : AllSucceed remote (made ++ [call]) rest) :
    AllSucceed remote made (call :: rest) := by
  intro pre x post h
  cases pre with
  | nil =>
    injection h with ha hb
    subst ha
    simpa using h1
  | cons y pre =>
    injection h with ha hb
    subst ha
    have := h2 pre x post hb
    simpa using this

/-- What `issue` does: either every call succeeds and all are made, or the calls are
made up to the first one that fails. -/
theorem issue_spec (remote : Remote) (calls made : List Call) :
    ((issue remote made calls).2 = none ∧ AllSucceed remote made calls ∧
      (issue remote made calls).1 = made ++ calls) ∨
    ∃ pre call post e, calls = pre ++ call :: post ∧ AllSucceed remote made pre ∧
      (remote (made ++ pre) call).err = some e ∧
      (issue remote made calls).1 = made ++ pre ++ [call] ∧
      (issue remote made calls).2 = some (call, e) := by
  induction calls generalizing made with
  | nil => exact Or.inl ⟨rfl, AllSucceed_nil _ _, by simp [issue]⟩
  | cons call rest ih =>
    cases h : (remote made call).err with
    | some e =>
      refine Or.inr ⟨[], call, rest, e, rfl, AllSucceed_nil _ _, by simpa using h, ?_, ?_⟩
      · simp [issue, h]
      · simp [issue, h]
    | none =>
      rcases ih (made ++ [call]) with ⟨h1, h2, h3⟩ | ⟨pre, x, post, e, h1, h2, h3, h4, h5⟩
      · refine Or.inl ⟨?_, AllSucceed_cons _ _ _ _ h h2, ?_⟩
        · simp [issue, h, h1]
        · simp [issue, h, h3]
      · refine Or.inr ⟨call :: pre, x, post, e, by simp [h1],
          AllSucceed_cons _ _ _ _ h h2, by simpa using h3, ?_, ?_⟩
        · simp [issue, h, h4]
        · simp [issue, h, h5]

theorem StatementId_of_mem_planOf_removes (D : FunctionURLPermissions)
    (statements : List PolicyStatement) :
    ∀ p ∈ (planOf D (permissionsOfStatements statements)).removes, p.StatementId ≠ none := by
  intro p hp
  have := ((mem_planOf_removes _ _ (settled_permissionsOfStatements statements) p).1 hp).1
  rw [StatementId_of_mem_permissionsOfStatements _ p this]
  simp

/-- Outside dry-run mode the deployment issues the planned calls in order, up to the
first failure. -/
theorem deployFunctionURLPermissions_eq_issue (remote : Remote) (res : Option GetPolicyOutput)
    (err : Option RemoteError) (fc : FunctionURL) (c : FunctionURLConfig) (n : String)
    (L : FunctionURLPermissions) (made : List Call)
    (hc : fc.Config = some c) (hn : c.FunctionName = some n)
    (hL : getFunctionURLPermissions res err = Except.ok L) :
    deployFunctionURLPermissions remote res err fc { DryRun := false } made =
      ⟨outcomeOfIssue (issue remote made (plannedCalls c (planOf fc.Permissions L))).2,
       (issue remote made (plannedCalls c (planOf fc.Permissions L))).1,
       { fc with Permissions := settle fc.Permissions }⟩ := by
  obtain ⟨statements, rfl⟩ := getFunctionURLPermissions_ok res err L hL
  have hc1 : ({ fc with Permissions := settle fc.Permissions } : FunctionURL).Config = some c := hc
  unfold deployFunctionURLPermissions
  rw [calc_eq res err fc c n _ hc hn hL]
  simp only []
  split
  · rename_i h
    have h1 := List.length_eq_zero.1 h.1
    have h2 := List.length_eq_zero.1 h.2
    simp [plannedCalls, h1, h2, issue, outcomeOfIssue]
  · simp only [Bool.not_false, if_true]
    rw [addPermissions_eq_issue remote _ c hc1, plannedCalls, issue_append]
    cases hi : (issue remote made
        ((planOf fc.Permissions (permissionsOfStatements statements)).adds.map (addCallOf c))).2 with
    | some f =>
      obtain ⟨call, e⟩ := f
      simp [outcomeOfIssue]
    | none =>
      simp only [outcomeOfIssue]
      rw [removePermissions_eq_issue remote _ c hc1 _
        (StatementId_of_mem_planOf_removes fc.Permissions statements)]
      rfl

theorem matchExcludes_eq_false (sys : Host) (path : String) (excludes : List String) :
    matchExcludes sys path excludes = false ↔
      ∀ pattern ∈ excludes, sys.wildcardMatch pattern path = false := by
  induction excludes with
  | nil => simp [matchExcludes]
  | cons p rest ih =>
    unfold matchExcludes
    cases h : sys.wildcardMatch p path <;> simp [h, ih]

theorem writeEntry_entries (sys : Host) (z : List ZipEntry) (path relpath : String)
    (info : FileInfo) (reader : Option (List Nat)) :
    (writeEntry sys z path relpath info reader).1 = z ∨
      ∃ content, (writeEntry sys z path relpath info reader).1 =
        z ++ [⟨relpath, info, zipDeflate, content⟩] := by
  unfold writeEntry
  split
  · exact Or.inl rfl
  · split
    · exact Or.inl rfl
    · split
      · exact Or.inl rfl
      · exact Or.inr ⟨_, rfl⟩

/-- When `followSymlink` succeeds the link was read, its target is the link text joined
to the directory of the path, and the target was statted and is not a directory. -/
theorem followSymlink_ok (sys : Host) (path linkTarget : String) (targetInfo : FileInfo)
    (h : followSymlink sys path = Except.ok (linkTarget, targetInfo)) :
    ∃ link, sys.Readlink path = Except.ok link ∧
      linkTarget = sys.Join (sys.Dir path) link ∧
      sys.Stat linkTarget = Except.ok targetInfo ∧ targetInfo.IsDir = false := by
  unfold followSymlink at h
  cases hr : sys.Readlink path with
  | error e => simp [hr] at h
  | ok link =>
    simp only [hr] at h
    cases hs : sys.Stat (sys.Join (sys.Dir path) link) with
    | error e => simp [hs] at h
    | ok t =>
      simp only [hs] at h
      by_cases hd : t.IsDir = true
      · simp [hd] at h
      · simp only [hd, if_false, Bool.false_eq_true] at h
        injection h with h
        injection h with h1 h2
        subst h1
        subst h2
        exact ⟨link, rfl, rfl, hs, by simpa using hd⟩

/-- One call of `addToZip` writes nothing or one entry named `relpath`, whose header
information is the entry's own or that of a followed target that is not a directory. -/
theorem addToZip_entries (sys : Host) (z : List ZipEntry) (path relpath : String)
    (entry : DirEntry) (keepSymlink : Bool) :
    (addToZip sys z path relpath entry keepSymlink).1 = z ∨
      ∃ info content, (addToZip sys z path relpath entry keepSymlink).1 =
          z ++ [⟨relpath, info, zipDeflate, content⟩] ∧
        (entry.Info = Except.ok info ∨ info.IsDir = false) := by
  unfold addToZip
  split
  · exact Or.inl rfl
  · rename_i info hinfo
    split
    · split
      · split
        · exact Or.inl rfl
        · rcases writeEntry_entries sys z path relpath info _ with h | ⟨content, h⟩
          · exact Or.inl h
          · exact Or.inr ⟨info, content, h, Or.inl hinfo⟩
      · split
        · exact Or.inl rfl
        · rename_i linkTarget targetInfo hfollow
          obtain ⟨_, _, _, _, hdir⟩ := followSymlink_ok sys path linkTarget targetInfo hfollow
          rcases writeEntry_entries sys z linkTarget relpath targetInfo none with h | ⟨content, h⟩
          · exact Or.inl h
          · exact Or.inr ⟨targetInfo, content, h, Or.inr hdir⟩
    · rcases writeEntry_entries sys z path relpath info none with h | ⟨content, h⟩
      · exact Or.inl h
      · exact Or.inr ⟨info, content, h, Or.inl hinfo⟩

/-- What an entry written for a visit satisfies. -/
theorem walkFn_entries (sys : Host) (src : String) (excludes : List String) (keepSymlink : Bool)
    (z : List ZipEntry) (v : Visit) :
    (walkFn sys src excludes keepSymlink z v).1 = z ∨
      ∃ path d e, v = Visit.entry path d ∧ d.IsDir = false ∧
        matchExcludes sys (sys.Rel src path) excludes = false ∧
        e.Name = sys.Rel src path ∧ (d.Info = Except.ok e.Info ∨ e.Info.IsDir = false) ∧
        (walkFn sys src excludes keepSymlink z v).1 = z ++ [e] := by
  cases v with
  | failed path d err => exact Or.inl rfl
  | entry path d =>
    unfold walkFn
    by_cases hd : d.IsDir = true
    · simp [hd]
    · by_cases hm : matchExcludes sys (sys.Rel src path) excludes = true
      · simp [hd, hm]
      · simp only [hd, hm, if_false, Bool.false_eq_true]
        rcases addToZip_entries sys z path (sys.Rel src path) d keepSymlink with
          h | ⟨info, content, h, hi⟩
        · exact Or.inl h
        · exact Or.inr ⟨path, d, _, rfl, by simpa using hd, by simpa using hm, rfl, hi, h⟩

/-- Every entry the walk writes is named by the relative path of a visited entry that
is not a directory and that no pattern matches. -/
theorem walkAll_entries (sys : Host) (src : String) (excludes : List String) (keepSymlink : Bool)
    (visits : List Visit) (z : List ZipEntry) :
    ∀ e ∈ (walkAll sys src excludes keepSymlink z visits).1, e ∈ z ∨
      ∃ path d, Visit.entry path d ∈ visits ∧ d.IsDir = false ∧
        matchExcludes sys e.Name excludes = false ∧ e.Name = sys.Rel src path ∧
        (d.Info = Except.ok e.Info ∨ e.Info.IsDir = false) := by
  induction visits generalizing z with
  | nil => intro e he; exact Or.inl he
  | cons v vs ih =>
    intro e he
    have step : e ∈ (walkFn sys src excludes keepSymlink z v).1 → e ∈ z ∨
        ∃ path d, Visit.entry path d ∈ v :: vs ∧ d.IsDir = false ∧
          matchExcludes sys e.Name excludes = false ∧ e.Name = sys.Rel src path ∧
          (d.Info = Except.ok e.Info ∨ e.Info.IsDir = false) := by
      intro h
      rcases walkFn_entries sys src excludes keepSymlink z v with
        h1 | ⟨path, d, e1, hv, hd, hm, hn, hi, h1⟩
      · rw [h1] at h; exact Or.inl h
      · rw [h1] at h
        rcases List.mem_append.1 h with h | h
        · exact Or.inl h
        · have : e = e1 := by simpa using h
          subst this
          exact Or.inr ⟨path, d, by rw [hv]; exact List.mem_cons_self _ _, hd,
            by rw [hn]; exact hm, hn, hi⟩
    unfold walkAll at he
    split at he
    · exact step he
    · rcases ih _ e he with h | ⟨path, d, hv, rest⟩
      · exact step h
      · exact Or.inr ⟨path, d, List.mem_cons_of_mem _ hv, rest⟩

end Lambroll

/-! ## Claims -/

namespace Lambroll

/-- C1, as stated, fails: with two desired permissions that carry the same explicit
identifier `x` and different principals, and an empty live policy, the additions hold
the first permission twice; the second is a desired permission whose identifier is no
live identifier, and it is not among the additions. Likewise with two live statements
of identifier `x` and nothing desired: the removals hold the first one twice and not the
second. -/
theorem calcFunctionURLPermissionsDiff_omits_later_duplicate :
    getFunctionURLPermissions (some (policyWith [])) none = Except.ok [] ∧
    (calcFunctionURLPermissionsDiff (some (policyWith [])) none
        (definitionWith [explicitPermission "x" "a", explicitPermission "x" "b"]) =
      (Outcome.ok ⟨[explicitPermission "x" "a", explicitPermission "x" "a"], []⟩,
       definitionWith [explicitPermission "x" "a", explicitPermission "x" "b"]) ∧
    explicitPermission "x" "b" ∈
      (definitionWith [explicitPermission "x" "a", explicitPermission "x" "b"]).Permissions ∧
    (explicitPermission "x" "b").Sid.1 ∉ sidList [] ∧
    explicitPermission "x" "b" ∉ [explicitPermission "x" "a", explicitPermission "x" "a"]) ∧
    ((calcFunctionURLPermissionsDiff
        (some (policyWith [allowStatement "x", { allowStatement "x" with
          Principal := JSONValue.object [("AWS", JSONValue.string "123456789012")] }]))
        none (definitionWith [])).1 =
      Outcome.ok ⟨[], [permissionOfStatement (allowStatement "x"),
        permissionOfStatement (allowStatement "x")]⟩ ∧
    permissionOfStatement { allowStatement "x" with
        Principal := JSONValue.object [("AWS", JSONValue.string "123456789012")] } ∉
      [permissionOfStatement (allowStatement "x"), permissionOfStatement (allowStatement "x")]) :=
  ⟨rfl, by decide, by decide⟩

/-- C1 (amended): for every desired list and every live list, with the configuration and
the function name set, `calcFunctionURLPermissionsDiff` returns as additions exactly the
desired permissions (identifier filled in) whose Sid is not the Sid of any live
permission and that are the first desired permission with their Sid, and as removals
exactly the live permissions whose Sid is not the Sid of any desired permission and that
are the first live permission with their Sid. In particular live A, B and desired B, C
give the additions C and the removals A. -/
theorem calcFunctionURLPermissionsDiff_first_carriers
    (res : Option GetPolicyOutput) (err : Option RemoteError) (fc : FunctionURL)
    (c : FunctionURLConfig) (n : String) (L : FunctionURLPermissions)
    (hc : fc.Config = some c) (hn : c.FunctionName = some n)
    (hL : getFunctionURLPermissions res err = Except.ok L) :
    (∃ plan : Plan,
      calcFunctionURLPermissionsDiff res err fc =
        (Outcome.ok plan, { fc with Permissions := settle fc.Permissions }) ∧
      (∀ p, p ∈ plan.adds ↔
        p ∈ settle fc.Permissions ∧ p.Sid.1 ∉ sidList L ∧
          firstWithSid (settle fc.Permissions) p.Sid.1 = some p) ∧
      (∀ p, p ∈ plan.removes ↔
        p ∈ L ∧ p.Sid.1 ∉ sidList fc.Permissions ∧ firstWithSid L p.Sid.1 = some p)) ∧
    (calcFunctionURLPermissionsDiff (some (policyWith [allowStatement "A", allowStatement "B"]))
        none (definitionWith [explicitPermission "B" "*", explicitPermission "C" "*"])).1 =
      Outcome.ok ⟨[explicitPermission "C" "*"], [permissionOfStatement (allowStatement "A")]⟩ :=
  ⟨⟨planOf fc.Permissions L, calc_eq res err fc c n L hc hn hL,
    mem_planOf_adds fc.Permissions L,
    mem_planOf_removes fc.Permissions L (settled_getFunctionURLPermissions res err L hL)⟩,
   by decide⟩

/-- C1, at live A, B and desired B, C: the hypotheses hold and the plan is as stated. -/
theorem calcFunctionURLPermissionsDiff_first_carriers_witness :
    (definitionWith [explicitPermission "B" "*", explicitPermission "C" "*"]).Config =
      some { AuthType := "NONE", FunctionName := some "hello" } ∧
    (∃ plan : Plan,
      calcFunctionURLPermissionsDiff (some (policyWith [allowStatement "A", allowStatement "B"]))
          none (definitionWith [explicitPermission "B" "*", explicitPermission "C" "*"]) =
        (Outcome.ok plan,
         { definitionWith [explicitPermission "B" "*", explicitPermission "C" "*"] with
           Permissions := settle [explicitPermission "B" "*", explicitPermission "C" "*"] }) ∧
      (explicitPermission "C" "*" ∈ plan.adds)) :=
  ⟨rfl,
   match (calcFunctionURLPermissionsDiff_first_carriers
      (some (policyWith [allowStatement "A", allowStatement "B"])) none
      (definitionWith [explicitPermission "B" "*", explicitPermission "C" "*"])
      { AuthType := "NONE", FunctionName := some "hello" } "hello"
      [permissionOfStatement (allowStatement "A"), permissionOfStatement (allowStatement "B")]
      rfl rfl rfl).1 with
   | ⟨plan, h1, h2, _⟩ => ⟨plan, h1, (h2 _).2 (by decide)⟩⟩

/-- C2: reconciliation is idempotent. For every desired list and every live policy, with
the configuration and the function name set: when the computed plan is applied to the
live statements (every statement with a removed StatementId deleted, one statement
appended per addition, recording the StatementId and Action that `AddPermissionInput`
sends, with Effect `Allow`), the next computation, on the definition as the first left it
or on the definition as first loaded, returns no additions and no removals. -/
theorem calcFunctionURLPermissionsDiff_idempotent
    (res : Option GetPolicyOutput) (err : Option RemoteError) (fc fc1 : FunctionURL)
    (c : FunctionURLConfig) (n : String) (statements added : List PolicyStatement)
    (plan : Plan) (id version : String)
    (hc : fc.Config = some c) (hn : c.FunctionName = some n)
    (hL : getFunctionURLPermissions res err = Except.ok (permissionsOfStatements statements))
    (hplan : calcFunctionURLPermissionsDiff res err fc = (Outcome.ok plan, fc1))
    (hadd : List.Forall₂ (Records fc1) plan.adds added) :
    calcFunctionURLPermissionsDiff
        (some ⟨Except.ok ⟨id, version, appliedStatements statements plan.removes added⟩⟩) none fc1 =
      (Outcome.ok ⟨[], []⟩, fc1) ∧
    calcFunctionURLPermissionsDiff
        (some ⟨Except.ok ⟨id, version, appliedStatements statements plan.removes added⟩⟩) none fc =
      (Outcome.ok ⟨[], []⟩, fc1) := by
  rw [calc_eq res err fc c n _ hc hn hL] at hplan
  injection hplan with h1 h2
  injection h1 with h1
  subst h1
  subst h2
  have hc1 : ({ fc with Permissions := settle fc.Permissions } : FunctionURL).Config = some c := hc
  obtain ⟨ha, hb⟩ := sidList_applied fc.Permissions statements added _ c hc1 hadd
  have hget : getFunctionURLPermissions (some ⟨Except.ok ⟨id, version, appliedStatements
      statements (planOf fc.Permissions (permissionsOfStatements statements)).removes added⟩⟩)
      none = Except.ok (permissionsOfStatements (appliedStatements statements
        (planOf fc.Permissions (permissionsOfStatements statements)).removes added)) := rfl
  constructor
  · rw [calc_eq _ none _ c n _ hc1 hn hget]
    simp only [settle_of_settled _ (settled_settle fc.Permissions)]
    rw [planOf_eq_nil _ _ (fun x hx => by rw [sidList_settle]; exact ha x hx)
      (fun x hx => hb x (by rw [sidList_settle] at hx; exact hx))]
  · rw [calc_eq _ none _ c n _ hc hn hget]
    rw [planOf_eq_nil _ _ ha hb]

/-- C2, at live A, B and desired B, C: the plan adds C and removes A; once A is deleted
and a statement C is appended, the next plan is empty. -/
theorem calcFunctionURLPermissionsDiff_idempotent_witness :
    calcFunctionURLPermissionsDiff
        (some ⟨Except.ok ⟨"", "2012-10-17",
          appliedStatements [allowStatement "A", allowStatement "B"]
            [permissionOfStatement (allowStatement "A")] [allowStatement "C"]⟩⟩) none
        (definitionWith [explicitPermission "B" "*", explicitPermission "C" "*"]) =
      (Outcome.ok ⟨[], []⟩,
       definitionWith [explicitPermission "B" "*", explicitPermission "C" "*"]) :=
  (calcFunctionURLPermissionsDiff_idempotent
    (some (policyWith [allowStatement "A", allowStatement "B"])) none
    (definitionWith [explicitPermission "B" "*", explicitPermission "C" "*"])
    (definitionWith [explicitPermission "B" "*", explicitPermission "C" "*"])
    { AuthType := "NONE", FunctionName := some "hello" } "hello"
    [allowStatement "A", allowStatement "B"] [allowStatement "C"]
    ⟨[explicitPermission "C" "*"], [permissionOfStatement (allowStatement "A")]⟩
    "" "2012-10-17" rfl rfl rfl (by decide)
    (List.Forall₂.cons ⟨_, _, rfl, rfl, rfl, rfl⟩ List.Forall₂.nil)).2

/-- C3, as stated, fails: two permissions without explicit StatementId and with equal
Principal, PrincipalOrgID, SourceArn and Action, one of which names a SourceAccount, have
different Sids. -/
theorem Sid_differs_on_SourceAccount :
    wildcardPermission.StatementId = none ∧ accountPermission.StatementId = none ∧
    wildcardPermission.Principal = accountPermission.Principal ∧
    wildcardPermission.PrincipalOrgID = accountPermission.PrincipalOrgID ∧
    wildcardPermission.SourceArn = accountPermission.SourceArn ∧
    wildcardPermission.Action = accountPermission.Action ∧
    wildcardPermission.Sid.1 = "lambroll-8f4ec83e623a309d9ca15db9276da30b2129be9c" ∧
    accountPermission.Sid.1 = "lambroll-e0d19b446c7f396a45839869811bc908265472e6" ∧
    wildcardPermission.Sid.1 ≠ accountPermission.Sid.1 := by
  set_option maxRecDepth 100000 in decide

/-- C3 (amended): two permissions as loaded from a definition (no cached sid, guard not
run) that carry no explicit StatementId and have equal Principal, PrincipalOrgID,
SourceArn and Action, and equal FunctionName, EventSourceToken, FunctionUrlAuthType,
Qualifier, RevisionId and SourceAccount, have the same Sid. -/
theorem Sid_eq_of_equal_members (A B : FunctionURLPermission)
    (hA : A.StatementId = none) (hB : B.StatementId = none)
    (hsA : A.sid = "") (hsB : B.sid = "") (hoA : A.once = false) (hoB : B.once = false)
    (h1 : A.Principal = B.Principal) (h2 : A.PrincipalOrgID = B.PrincipalOrgID)
    (h3 : A.SourceArn = B.SourceArn) (h4 : A.Action = B.Action)
    (h5 : A.FunctionName = B.FunctionName) (h6 : A.EventSourceToken = B.EventSourceToken)
    (h7 : A.FunctionUrlAuthType = B.FunctionUrlAuthType) (h8 : A.Qualifier = B.Qualifier)
    (h9 : A.RevisionId = B.RevisionId) (h10 : A.SourceAccount = B.SourceAccount) :
    A.Sid.1 = B.Sid.1 ∧ A.Sid.1 = derivedSid A := by
  have e : A = B := by
    rcases A with ⟨⟨⟩, _, _⟩
    rcases B with ⟨⟨⟩, _, _⟩
    simp_all
  subst e
  exact ⟨rfl, Sid_fresh A hA hsA hoA⟩

/-- C3, at two copies of the grant restricted to one source account. -/
theorem Sid_eq_of_equal_members_witness :
    accountPermission.Sid.1 = accountPermission.Sid.1 ∧
      accountPermission.Sid.1 = derivedSid accountPermission :=
  Sid_eq_of_equal_members accountPermission accountPermission rfl rfl rfl rfl rfl rfl
    rfl rfl rfl rfl rfl rfl rfl rfl rfl rfl

/-- C4: for every permission whose StatementId is explicitly supplied and whose cached sid
is empty, `Sid` returns exactly that StatementId and leaves the permission, StatementId
included, unchanged; so do any number of successive calls. -/
theorem Sid_explicit (p : FunctionURLPermission) (s : String)
    (h : p.StatementId = some s) (hs : p.sid = "") :
    p.Sid = (s, p) ∧ ∀ k, sidCalls k p = (List.replicate k s, p) := by
  have h1 : p.Sid = (s, p) := by
    unfold FunctionURLPermission.Sid
    simp [h, hs]
  refine ⟨h1, fun k => ?_⟩
  induction k with
  | zero => rfl
  | succ k ih => simp [sidCalls, h1, ih, List.replicate_succ]

/-- C4, at a permission with the explicit identifier `x`: three calls return `x` three
times and leave it as it was. -/
theorem Sid_explicit_witness :
    (explicitPermission "x" "a").Sid = ("x", explicitPermission "x" "a") ∧
    sidCalls 3 (explicitPermission "x" "a") = (["x", "x", "x"], explicitPermission "x" "a") :=
  ⟨(Sid_explicit (explicitPermission "x" "a") "x" rfl rfl).1,
   (Sid_explicit (explicitPermission "x" "a") "x" rfl rfl).2 3⟩

/-- C5, as stated, fails: with two desired permissions without identifier and with
identical content, and no live policy, the plan holds two additions with the common
derived Sid, not one. -/
theorem calcFunctionURLPermissionsDiff_keeps_both_duplicates :
    getFunctionURLPermissions none (some ⟨true, "not found"⟩) = Except.ok [] ∧
    wildcardPermission.StatementId = none ∧
    (calcFunctionURLPermissionsDiff none (some ⟨true, "not found"⟩)
        (definitionWith [wildcardPermission, wildcardPermission])).1 =
      Outcome.ok ⟨[wildcardPermission.Sid.2, wildcardPermission.Sid.2], []⟩ ∧
    sidList [wildcardPermission.Sid.2, wildcardPermission.Sid.2] =
      [derivedSid wildcardPermission, derivedSid wildcardPermission] ∧
    (sidList [wildcardPermission.Sid.2, wildcardPermission.Sid.2]).count
      (derivedSid wildcardPermission) ≠ 1 :=
  ⟨rfl, by set_option maxRecDepth 100000 in decide⟩

/-- C5 (amended): for every desired list that contains two permissions without explicit
identifier and with identical content (as loaded: no cached sid, guard not run), whose
common derived Sid is no live Sid, the plan holds one addition with that Sid for each
desired permission with that Sid, hence at least two, and each of them is the first
desired permission with that Sid: the two do not collapse to one entry. -/
theorem calcFunctionURLPermissionsDiff_duplicates
    (res : Option GetPolicyOutput) (err : Option RemoteError) (fc : FunctionURL)
    (c : FunctionURLConfig) (n : String) (L : FunctionURLPermissions)
    (p : FunctionURLPermission)
    (hc : fc.Config = some c) (hn : c.FunctionName = some n)
    (hL : getFunctionURLPermissions res err = Except.ok L)
    (hp : p.StatementId = none) (hs : p.sid = "") (ho : p.once = false)
    (htwo : 2 ≤ fc.Permissions.count p) (hlive : derivedSid p ∉ sidList L) :
    ∃ plan : Plan,
      calcFunctionURLPermissionsDiff res err fc =
        (Outcome.ok plan, { fc with Permissions := settle fc.Permissions }) ∧
      (sidList plan.adds).count (derivedSid p) = (sidList fc.Permissions).count (derivedSid p) ∧
      2 ≤ (sidList plan.adds).count (derivedSid p) ∧
      ∀ a ∈ plan.adds, a.Sid.1 = derivedSid p →
        firstWithSid (settle fc.Permissions) (derivedSid p) = some a := by
  refine ⟨planOf fc.Permissions L, calc_eq res err fc c n L hc hn hL, ?_, ?_, ?_⟩
  · exact count_sidList_planOf_adds _ _ _ hlive
  · rw [count_sidList_planOf_adds _ _ _ hlive, ← Sid_fresh p hp hs ho]
    exact le_trans htwo (List.count_le_count_map fc.Permissions (fun q => q.Sid.1) p)
  · intro a ha hsid
    have := ((mem_planOf_adds _ _ a).1 ha).2.2
    rw [hsid] at this
    exact this

/-- C5, at the wildcard grant written twice with no live policy: two additions. -/
theorem calcFunctionURLPermissionsDiff_duplicates_witness :
    ∃ plan : Plan,
      calcFunctionURLPermissionsDiff none (some ⟨true, "not found"⟩)
          (definitionWith [wildcardPermission, wildcardPermission]) =
        (Outcome.ok plan, { definitionWith [wildcardPermission, wildcardPermission] with
          Permissions := settle [wildcardPermission, wildcardPermission] }) ∧
      2 ≤ (sidList plan.adds).count (derivedSid wildcardPermission) :=
  match calcFunctionURLPermissionsDiff_duplicates none (some ⟨true, "not found"⟩)
      (definitionWith [wildcardPermission, wildcardPermission])
      { AuthType := "NONE", FunctionName := some "hello" } "hello" [] wildcardPermission
      rfl rfl rfl rfl rfl rfl (by decide) (by simp [sidList]) with
  | ⟨plan, h1, _, h3, _⟩ => ⟨plan, h1, h3⟩

/-- C6: for every FunctionURL with a Config, AuthType NONE and no permissions, `Validate`
returns no error and leaves Permissions holding exactly one permission, whose Principal
is `*` and whose other members are unset. -/
theorem Validate_none_default (f : FunctionURL) (c : FunctionURLConfig) (name : String)
    (hc : f.Config = some c) (ha : c.AuthType = FunctionUrlAuthTypeNone)
    (hp : f.Permissions = []) :
    (f.Validate name).1 = none ∧
    (f.Validate name).2.Permissions =
      [{ Action := none, FunctionName := none, Principal := some "*", StatementId := none,
         EventSourceToken := none, FunctionUrlAuthType := "", PrincipalOrgID := none,
         Qualifier := none, RevisionId := none, SourceAccount := none, SourceArn := none,
         sid := "", once := false }] ∧
    (f.Validate name).2.Config = some { c with FunctionName := some name } := by
  unfold FunctionURL.Validate
  simp [hc, ha, hp]

/-- C6, at a definition with AuthType NONE and no permissions. -/
theorem Validate_none_default_witness :
    ((definitionWith []).Validate "hello").1 = none ∧
    ((definitionWith []).Validate "hello").2.Permissions = [wildcardPermission] :=
  ⟨(Validate_none_default (definitionWith []) { AuthType := "NONE", FunctionName := some "hello" }
      "hello" rfl rfl rfl).1,
   (Validate_none_default (definitionWith []) { AuthType := "NONE", FunctionName := some "hello" }
      "hello" rfl rfl rfl).2.1⟩

/-- C7: for every FunctionURL with a Config and AuthType AWS_IAM, `Validate` returns an
error if and only if Permissions is empty; Permissions is left as it was, so in the error
case it stays empty. -/
theorem Validate_iam_requires_permissions (f : FunctionURL) (c : FunctionURLConfig)
    (name : String) (hc : f.Config = some c) (ha : c.AuthType = FunctionUrlAuthTypeAwsIam) :
    ((f.Validate name).1 ≠ none ↔ f.Permissions = []) ∧
    (f.Validate name).2.Permissions = f.Permissions ∧
    ((f.Validate name).1 ≠ none → (f.Validate name).2.Permissions = []) := by
  have hne : ¬ (FunctionUrlAuthTypeAwsIam = FunctionUrlAuthTypeNone) := by decide
  unfold FunctionURL.Validate
  simp only [hc, ha, hne, if_false, if_true]
  by_cases hp : f.Permissions = []
  · simp [hp]
  · have hl : ¬ f.Permissions.length = 0 := fun h => hp (List.length_eq_zero.1 h)
    simp [hp, hl]

/-- C7, at a definition with AuthType AWS_IAM and no permissions: an error, and no
permission is synthesized. -/
theorem Validate_iam_requires_permissions_witness :
    (({ Config := some { AuthType := "AWS_IAM" }, Permissions := [] } : FunctionURL).Validate
      "hello").1 ≠ none ∧
    (({ Config := some { AuthType := "AWS_IAM" }, Permissions := [] } : FunctionURL).Validate
      "hello").2.Permissions = [] :=
  ⟨(Validate_iam_requires_permissions { Config := some { AuthType := "AWS_IAM" }, Permissions := [] }
      { AuthType := "AWS_IAM" } "hello" rfl rfl).1.2 rfl,
   (Validate_iam_requires_permissions { Config := some { AuthType := "AWS_IAM" }, Permissions := [] }
      { AuthType := "AWS_IAM" } "hello" rfl rfl).2.1⟩

/-- C8: for every live policy document that parses, `getFunctionURLPermissions` returns no
error and, in document order, exactly one permission per statement whose Action is
`lambda:InvokeFunctionUrl` and whose Effect is `Allow`, with `Sid()` equal to that
statement's Sid (and the permission unchanged by the call); every other statement is
dropped. For example, of a grant on another action, a function URL grant `A` and a
function URL denial, only `A` is kept. -/
theorem getFunctionURLPermissions_keeps_grants (policy : PolicyOutput) :
    (∃ ps : FunctionURLPermissions,
      getFunctionURLPermissions (some ⟨Except.ok policy⟩) none = Except.ok ps ∧
      ps = (policy.Statement.filter fun s =>
          decide (s.Action = "lambda:InvokeFunctionUrl" ∧ s.Effect = "Allow")).map
        permissionOfStatement ∧
      List.Forall₂ (fun s p => p.Sid = (s.Sid, p))
        (policy.Statement.filter fun s =>
          decide (s.Action = "lambda:InvokeFunctionUrl" ∧ s.Effect = "Allow")) ps) ∧
    (getFunctionURLPermissions (some (policyWith mixedStatements)) none).toOption =
      some [permissionOfStatement (allowStatement "A")] := by
  refine ⟨⟨_, rfl, permissionsOfStatements_eq _, ?_⟩, by decide⟩
  show List.Forall₂ _ _ (permissionsOfStatements policy.Statement)
  rw [permissionsOfStatements_eq]
  have key : ∀ l : List PolicyStatement,
      List.Forall₂ (fun s p => FunctionURLPermission.Sid p = (s.Sid, p)) l
        (l.map permissionOfStatement) := by
    intro l
    induction l with
    | nil => exact List.Forall₂.nil
    | cons s rest ih => exact List.Forall₂.cons (permissionOfStatement_Sid s) ih
  exact key _

/-- C9: `PrincipalString` unwraps the principal. A string principal is returned as is; an
object whose `AWS` value is a string gives the account ID of that value when it parses as
an ARN and the value itself otherwise; an object with no `AWS` value (the lookup is nil:
no entry, or a null one) and a string `Service` value gives the service; every other
shape gives nil (an `AWS` value that is a list, for one, even next to a `Service`). -/
theorem PrincipalString_cases (ps : PolicyStatement) :
    (∀ s, ps.Principal = JSONValue.string s → ps.PrincipalString = some s) ∧
    (∀ m a, ps.Principal = JSONValue.object m → mapIndex m "AWS" = JSONValue.string a →
      ps.PrincipalString =
        some (match arnParse a with
          | some parsed => parsed.AccountID
          | none => a)) ∧
    (∀ m s, ps.Principal = JSONValue.object m → mapIndex m "AWS" = JSONValue.null →
      mapIndex m "Service" = JSONValue.string s → ps.PrincipalString = some s) ∧
    ((∀ s, ps.Principal ≠ JSONValue.string s) →
      (∀ m a, ps.Principal = JSONValue.object m → mapIndex m "AWS" ≠ JSONValue.string a) →
      (∀ m s, ps.Principal = JSONValue.object m → mapIndex m "AWS" = JSONValue.null →
        mapIndex m "Service" ≠ JSONValue.string s) →
      ps.PrincipalString = none) ∧
    PolicyStatement.PrincipalString
        { Principal := JSONValue.object
            [("AWS", JSONValue.string "arn:aws:iam::123456789012:root")] } =
      some "123456789012" ∧
    PolicyStatement.PrincipalString
        { Principal := JSONValue.object [("AWS", JSONValue.string "123456789012")] } =
      some "123456789012" ∧
    PolicyStatement.PrincipalString
        { Principal := JSONValue.object
            [("AWS", JSONValue.array [JSONValue.string "123456789012"]),
             ("Service", JSONValue.string "events.amazonaws.com")] } = none := by
  refine ⟨?_, ?_, ?_, ?_, by decide, by decide, by decide⟩
  · intro s h
    simp [PolicyStatement.PrincipalString, h]
  · intro m a h h1
    simp only [PolicyStatement.PrincipalString, h, h1, JSONValue.isNil]
    cases arnParse a <;> rfl
  · intro m s h h1 h2
    simp [PolicyStatement.PrincipalString, h, h1, h2, JSONValue.isNil]
  · intro h1 h2 h3
    unfold PolicyStatement.PrincipalString
    cases h : ps.Principal with
    | null => rfl
    | bool b => rfl
    | number l => rfl
    | string s => exact absurd h (h1 s)
    | array l => rfl
    | object m =>
      simp only
      cases ha : mapIndex m "AWS" with
      | string a => exact absurd ha (h2 m a h)
      | null =>
        simp only [JSONValue.isNil]
        cases hs : mapIndex m "Service" with
        | string s => exact absurd hs (h3 m s h ha)
        | null => rfl
        | bool b => rfl
        | number l => rfl
        | array l => rfl
        | object o => rfl
      | bool b => rfl
      | number l => rfl
      | array l => rfl
      | object o => rfl

/-- C10, at the failing input: for a statement with principal `*` whose `StringEquals`
block has `lambda:FunctionUrlAuthType` equal to `AWS_IAM`, `PrincipalOrgID` returns the
organization stored under the key `aws:PrincipalOrgID` spelled exactly so, and nil when
the key is spelled `aws:principalorgid`, although the two keys are equal once
lower-cased; `SourceArn` does return the value stored under `AWS:SourceArn`. -/
theorem PrincipalOrgID_key_is_case_sensitive :
    (orgStatement "lambda:FunctionUrlAuthType" "aws:PrincipalOrgID").PrincipalOrgID =
      some "o-a1b2c3d4e5" ∧
    toLower "aws:principalorgid" = toLower "aws:PrincipalOrgID" ∧
    (orgStatement "lambda:FunctionUrlAuthType" "aws:principalorgid").PrincipalString = some "*" ∧
    (orgStatement "lambda:FunctionUrlAuthType" "aws:principalorgid").PrincipalOrgID = none ∧
    (sourceArnStatement "AWS:SourceArn").SourceArn =
      some "arn:aws:events:us-east-1:123456789012:rule/r" := by
  decide

/-- C15: for every environment and every string name, the native function `must_env`
returns an error if and only if the variable is not set; when the variable is set, even
to the empty string, it returns the variable's value. -/
theorem must_env_error_iff_unset (environ : Environ) (name : String) (rest : List JSONValue) :
    ((∃ m, DefaultJsonnetNativeFuncs.must_env environ (JSONValue.string name :: rest) =
        Outcome.error m) ↔ environ name = none) ∧
    (∀ v, environ name = some v →
      DefaultJsonnetNativeFuncs.must_env environ (JSONValue.string name :: rest) =
        Outcome.ok (JSONValue.string v)) ∧
    DefaultJsonnetNativeFuncs.must_env (fun key => if key = "BAR" then some "" else none)
        [JSONValue.string "BAR"] = Outcome.ok (JSONValue.string "") ∧
    DefaultJsonnetNativeFuncs.must_env (fun key => if key = "FOO" then some "foo" else none)
        [JSONValue.string "BAR"] = Outcome.error "must_env: BAR is not set" := by
  refine ⟨?_, ?_, ?_, ?_⟩
  · cases h : environ name with
    | none => simp [DefaultJsonnetNativeFuncs.must_env, h]
    | some v => simp [DefaultJsonnetNativeFuncs.must_env, h]
  · intro v h
    simp [DefaultJsonnetNativeFuncs.must_env, h]
  · simp [DefaultJsonnetNativeFuncs.must_env]
  · simp [DefaultJsonnetNativeFuncs.must_env]

/-- C16: for every environment, every string name and every default, the native
function `env` returns the variable's value when the variable is set to a non-empty
string, and the supplied default, unchanged, otherwise (not set, or set to the empty
string); a name that is not a string is rejected with an error. -/
theorem env_value_or_default (environ : Environ) (name : String) (dflt : JSONValue)
    (rest : List JSONValue) :
    (∀ v, environ name = some v → v ≠ "" →
      DefaultJsonnetNativeFuncs.env environ (JSONValue.string name :: dflt :: rest) =
        Outcome.ok (JSONValue.string v)) ∧
    (environ name = none ∨ environ name = some "" →
      DefaultJsonnetNativeFuncs.env environ (JSONValue.string name :: dflt :: rest) =
        Outcome.ok dflt) ∧
    (∀ other : JSONValue, (∀ s, other ≠ JSONValue.string s) →
      DefaultJsonnetNativeFuncs.env environ (other :: dflt :: rest) =
        Outcome.error "env: name must be a string") ∧
    DefaultJsonnetNativeFuncs.env (fun key => if key = "FOO" then some "foo" else none)
        [JSONValue.string "FOO", JSONValue.string "default"] =
      Outcome.ok (JSONValue.string "foo") ∧
    DefaultJsonnetNativeFuncs.env (fun key => if key = "BAR" then some "bar" else none)
        [JSONValue.string "FOO", JSONValue.string "default"] =
      Outcome.ok (JSONValue.string "default") ∧
    DefaultJsonnetNativeFuncs.env (fun key => if key = "FOO" then some "" else none)
        [JSONValue.string "FOO", JSONValue.number "1"] = Outcome.ok (JSONValue.number "1") := by
  refine ⟨?_, ?_, ?_, by simp [DefaultJsonnetNativeFuncs.env, osGetenv],
    by simp [DefaultJsonnetNativeFuncs.env, osGetenv],
    by simp [DefaultJsonnetNativeFuncs.env, osGetenv]⟩
  · intro v h hv
    simp [DefaultJsonnetNativeFuncs.env, osGetenv, h, hv]
  · rintro (h | h) <;> simp [DefaultJsonnetNativeFuncs.env, osGetenv, h]
  · intro other h
    cases other with
    | string s => exact absurd rfl (h s)
    | null => rfl
    | bool b => rfl
    | number l => rfl
    | array l => rfl
    | object o => rfl

/-- C17, as stated, fails in its consequence: when the live policy holds no function
URL grant (an empty policy, or none at all), nothing is written to the permission file;
read back with AuthType NONE, the definition gets the wildcard grant from `Validate`, and
reconciling it against the same live policy yields one addition. -/
theorem reread_of_empty_policy_plans_wildcard :
    getFunctionURLPermissions (some (policyWith [])) none = Except.ok [] ∧
    getFunctionURLPermissions none (some ⟨true, "ResourceNotFoundException"⟩) = Except.ok [] ∧
    (FunctionURL.Validate
      { Config := some { AuthType := "NONE" }
        Permissions := ([] : FunctionURLPermissions).map rereadPermission } "hello").1 = none ∧
    (calcFunctionURLPermissionsDiff (some (policyWith [])) none
      (FunctionURL.Validate
        { Config := some { AuthType := "NONE" }
          Permissions := ([] : FunctionURLPermissions).map rereadPermission } "hello").2).1 =
      Outcome.ok ⟨[wildcardPermission.Sid.2], []⟩ ∧
    (calcFunctionURLPermissionsDiff none (some ⟨true, "ResourceNotFoundException"⟩)
      (FunctionURL.Validate
        { Config := some { AuthType := "NONE" }
          Permissions := ([] : FunctionURLPermissions).map rereadPermission } "hello").2).1 =
      Outcome.ok ⟨[wildcardPermission.Sid.2], []⟩ ∧
    (Outcome.ok ⟨[wildcardPermission.Sid.2], []⟩ : Outcome Plan) ≠ Outcome.ok ⟨[], []⟩ :=
  ⟨rfl, rfl, by set_option maxRecDepth 100000 in decide⟩

/-- C17 (amended): for every permission returned by `getFunctionURLPermissions`, the
permission read back from its exported members, the cached sid lost, has the same Sid;
hence, when at least one permission is returned, the definition read back (its
permissions the live ones read back so, validated as `loadFunctionUrl` does) reconciled
against the same live policy yields no additions and no removals. When none is returned
and AuthType is NONE, `Validate` succeeds and synthesizes the wildcard grant, which is
the one addition of the plan. -/
theorem Sid_survives_reread (res : Option GetPolicyOutput) (err : Option RemoteError)
    (written : FunctionURL) (c : FunctionURLConfig) (name : String)
    (L : FunctionURLPermissions)
    (hL : getFunctionURLPermissions res err = Except.ok L)
    (hc : written.Config = some c) (hD : written.Permissions = L.map rereadPermission) :
    (∀ p ∈ L, (rereadPermission p).Sid.1 = p.Sid.1) ∧
    (L ≠ [] → (written.Validate name).1 = none →
      (calcFunctionURLPermissionsDiff res err (written.Validate name).2).1 =
        Outcome.ok ⟨[], []⟩) ∧
    (L = [] → c.AuthType = FunctionUrlAuthTypeNone →
      (written.Validate name).1 = none ∧
      (calcFunctionURLPermissionsDiff res err (written.Validate name).2).1 =
        Outcome.ok ⟨[wildcardPermission.Sid.2], []⟩) := by
  obtain ⟨statements, rfl⟩ := getFunctionURLPermissions_ok res err L hL
  refine ⟨fun p hp => rereadPermission_Sid_of_mem statements p hp, ?_, ?_⟩
  · intro hne hv
    have hlen : ¬ written.Permissions.length = 0 := by
      rw [hD, List.length_map]
      intro h0
      exact hne (List.length_eq_zero.1 h0)
    have hval : (written.Validate name).2 =
        { written with Config := some { c with FunctionName := some name } } := by
      unfold FunctionURL.Validate at hv ⊢
      simp only [hc] at hv ⊢
      by_cases h1 : c.AuthType = FunctionUrlAuthTypeNone
      · simp [h1, hlen]
      · by_cases h2 : c.AuthType = FunctionUrlAuthTypeAwsIam
        · simp [h1, h2, hlen]
        · simp [h1, h2] at hv
    rw [hval, calc_eq res err _ { c with FunctionName := some name } name _ rfl rfl hL]
    have e := sidList_map_rereadPermission statements
    rw [← hD] at e
    exact congrArg Outcome.ok
      (planOf_eq_nil _ _ (fun x hx => by rw [e]; exact hx) (fun x hx => by rw [e] at hx; exact hx))
  · intro hnil hnone
    rw [hnil] at hL hD
    have hp : written.Permissions = [] := by rw [hD]; rfl
    have hval : written.Validate name =
        (none, { Config := some { c with FunctionName := some name }
                 Permissions := [wildcardPermission] }) := by
      unfold FunctionURL.Validate
      simp [hc, hnone, hp, wildcardPermission]
    rw [hval]
    refine ⟨rfl, ?_⟩
    rw [calc_eq res err _ { c with FunctionName := some name } name [] rfl rfl hL]
    show Outcome.ok (planOf [wildcardPermission] []) = _
    exact congrArg Outcome.ok (by set_option maxRecDepth 100000 in decide)

/-- C17, at a live policy with the grants A and B, read back into a definition with
AuthType NONE: the grant A keeps its Sid and the plan is empty. -/
theorem Sid_survives_reread_witness :
    (rereadPermission (permissionOfStatement (allowStatement "A"))).Sid.1 =
      (permissionOfStatement (allowStatement "A")).Sid.1 ∧
    (calcFunctionURLPermissionsDiff
      (some (policyWith [allowStatement "A", allowStatement "B"])) none
      (FunctionURL.Validate
        { Config := some { AuthType := "NONE" }
          Permissions := [permissionOfStatement (allowStatement "A"),
            permissionOfStatement (allowStatement "B")].map rereadPermission } "hello").2).1 =
      Outcome.ok ⟨[], []⟩ :=
  ⟨(Sid_survives_reread (some (policyWith [allowStatement "A", allowStatement "B"])) none
      { Config := some { AuthType := "NONE" }
        Permissions := [permissionOfStatement (allowStatement "A"),
          permissionOfStatement (allowStatement "B")].map rereadPermission }
      { AuthType := "NONE" } "hello"
      [permissionOfStatement (allowStatement "A"), permissionOfStatement (allowStatement "B")]
      rfl rfl rfl).1 (permissionOfStatement (allowStatement "A")) (List.mem_cons_self _ _),
   (Sid_survives_reread (some (policyWith [allowStatement "A", allowStatement "B"])) none
      { Config := some { AuthType := "NONE" }
        Permissions := [permissionOfStatement (allowStatement "A"),
          permissionOfStatement (allowStatement "B")].map rereadPermission }
      { AuthType := "NONE" } "hello"
      [permissionOfStatement (allowStatement "A"), permissionOfStatement (allowStatement "B")]
      rfl rfl rfl).2.1 (by simp) rfl⟩

/-- C18, as stated, fails in its consequence: when `GetPolicy` fails with the
resource-not-found condition and two desired permissions carry the same explicit
identifier `x`, the additions hold the first one twice; the second desired grant is not
planned as an addition. -/
theorem not_found_plan_omits_later_duplicate :
    getFunctionURLPermissions none (some ⟨true, "ResourceNotFoundException"⟩) = Except.ok [] ∧
    (calcFunctionURLPermissionsDiff none (some ⟨true, "ResourceNotFoundException"⟩)
        (definitionWith [explicitPermission "x" "a", explicitPermission "x" "b"])).1 =
      Outcome.ok ⟨[explicitPermission "x" "a", explicitPermission "x" "a"], []⟩ ∧
    explicitPermission "x" "b" ∈
      (definitionWith [explicitPermission "x" "a", explicitPermission "x" "b"]).Permissions ∧
    explicitPermission "x" "b" ∉ [explicitPermission "x" "a", explicitPermission "x" "a"] :=
  ⟨rfl, by decide⟩

/-- C18 (amended): when `GetPolicy` fails with the resource-not-found condition (and so
returns no response), `getFunctionURLPermissions` returns an empty list and no error, so
that the plan has no removals and every desired Sid is planned as an addition: one
addition for each desired permission, with its Sid, each addition being a desired
permission (the first with that Sid); when `GetPolicy` fails with any other error, that
error is returned, wrapped, and no list. -/
theorem getFunctionURLPermissions_not_found (m : String) :
    getFunctionURLPermissions none (some ⟨true, m⟩) = Except.ok [] ∧
    (∀ res, getFunctionURLPermissions res (some ⟨false, m⟩) =
      Except.error ("failed to get policy: " ++ m)) ∧
    (∀ (fc : FunctionURL) (c : FunctionURLConfig) (n : String),
      fc.Config = some c → c.FunctionName = some n →
      ∃ plan : Plan,
        calcFunctionURLPermissionsDiff none (some ⟨true, m⟩) fc =
          (Outcome.ok plan, { fc with Permissions := settle fc.Permissions }) ∧
        plan.removes = [] ∧
        sidList plan.adds = sortStrings (sidList fc.Permissions) ∧
        (∀ p ∈ settle fc.Permissions, ∃ a ∈ plan.adds, a.Sid.1 = p.Sid.1) ∧
        (∀ a ∈ plan.adds,
          a ∈ settle fc.Permissions ∧ firstWithSid (settle fc.Permissions) a.Sid.1 = some a)) := by
  refine ⟨rfl, fun _ => rfl, ?_⟩
  intro fc c n hc hn
  refine ⟨planOf fc.Permissions [], calc_eq none _ fc c n [] hc hn rfl, ?_, ?_, ?_, ?_⟩
  · simp [planOf, loDifference, sidList]
  · rw [sidList_planOf_adds]
    simp [loDifference, sidList]
  · intro p hp
    have hs : p.Sid.1 ∈ sidList (planOf fc.Permissions []).adds := by
      rw [sidList_planOf_adds, mem_loDifference_snd, mem_sortStrings, ← sidList_settle]
      exact ⟨List.mem_map.2 ⟨p, hp, rfl⟩, by simp [sidList]⟩
    obtain ⟨a, ha, h⟩ := List.mem_map.1 hs
    exact ⟨a, ha, h⟩
  · intro a ha
    exact ⟨((mem_planOf_adds _ _ a).1 ha).1, ((mem_planOf_adds _ _ a).1 ha).2.2⟩

/-- C18, at the desired grants B and C with no live policy: both are planned as
additions and nothing is removed. -/
theorem getFunctionURLPermissions_not_found_witness :
    ∃ plan : Plan,
      calcFunctionURLPermissionsDiff none (some ⟨true, "ResourceNotFoundException"⟩)
          (definitionWith [explicitPermission "C" "*", explicitPermission "B" "*"]) =
        (Outcome.ok plan,
         { definitionWith [explicitPermission "C" "*", explicitPermission "B" "*"] with
           Permissions := settle [explicitPermission "C" "*", explicitPermission "B" "*"] }) ∧
      plan.removes = [] ∧
      sidList plan.adds = sortStrings (sidList [explicitPermission "C" "*", explicitPermission "B" "*"]) :=
  match (getFunctionURLPermissions_not_found "ResourceNotFoundException").2.2
      (definitionWith [explicitPermission "C" "*", explicitPermission "B" "*"])
      { AuthType := "NONE", FunctionName := some "hello" } "hello" rfl rfl with
  | ⟨plan, h1, h2, h3, _⟩ => ⟨plan, h1, h2, h3⟩

/-- C19: the computation never reaches either panic of lines 355 and 365: the only panic
it can end in is the nil dereference of a definition without `Config` or function name.
With these set and the live policy read, every Sid computed as to-add is found by `Find`
among the desired permissions and every Sid computed as to-remove is found by `Find`
among the live ones, and every permission of the removal list has a StatementId. -/
theorem calcFunctionURLPermissionsDiff_finds_every_sid (res : Option GetPolicyOutput)
    (err : Option RemoteError) (fc : FunctionURL) :
    (∀ m, (calcFunctionURLPermissionsDiff res err fc).1 = Outcome.panic m →
      (fc.Config = none ∨ ∃ c, fc.Config = some c ∧ c.FunctionName = none) ∧
        m = "invalid memory address or nil pointer dereference") ∧
    (∀ (c : FunctionURLConfig) (n : String) (L : FunctionURLPermissions),
      fc.Config = some c → c.FunctionName = some n →
      getFunctionURLPermissions res err = Except.ok L →
      (∀ sid ∈ (loDifference (sidsOf L).1 (FunctionURLPermissions.Sids fc.Permissions).1).2,
        (FunctionURLPermissions.Find (FunctionURLPermissions.Sids fc.Permissions).2 sid).1 ≠ none) ∧
      (∀ sid ∈ (loDifference (sidsOf L).1 (FunctionURLPermissions.Sids fc.Permissions).1).1,
        (FunctionURLPermissions.Find (sidsOf L).2 sid).1 ≠ none) ∧
      ∃ plan : Plan, (calcFunctionURLPermissionsDiff res err fc).1 = Outcome.ok plan ∧
        ∀ p ∈ plan.removes, p.StatementId ≠ none) := by
  constructor
  · intro m hm
    cases hc : fc.Config with
    | none =>
      simp [calcFunctionURLPermissionsDiff, hc] at hm
      exact ⟨Or.inl rfl, hm.symm⟩
    | some c =>
      cases hn : c.FunctionName with
      | none =>
        simp [calcFunctionURLPermissionsDiff, hc, hn] at hm
        exact ⟨Or.inr ⟨c, rfl, hn⟩, hm.symm⟩
      | some n =>
        cases hL : getFunctionURLPermissions res err with
        | error e => simp [calcFunctionURLPermissionsDiff, hc, hn, hL] at hm
        | ok L =>
          rw [calc_eq res err fc c n L hc hn hL] at hm
          cases hm
  · intro c n L hc hn hL
    have hset := settled_getFunctionURLPermissions res err L hL
    simp only [FunctionURLPermissions.Sids, sidsOf_fst, sidsOf_snd]
    refine ⟨?_, ?_, planOf fc.Permissions L, ?_, ?_⟩
    · intro sid hsid
      rw [Find_settled _ (settled_settle _)]
      have hmem : sid ∈ sidList (settle fc.Permissions) := by
        rw [sidList_settle]
        exact (mem_sortStrings _ _).1 (loDifference_snd_sub _ _ sid hsid)
      obtain ⟨p, hp⟩ := firstWithSid_isSome _ _ hmem
      simp [hp]
    · intro sid hsid
      rw [Find_settled _ (settled_settle _)]
      have hmem : sid ∈ sidList (settle L) := by
        rw [sidList_settle]
        exact loDifference_fst_sub _ _ sid hsid
      obtain ⟨p, hp⟩ := firstWithSid_isSome _ _ hmem
      simp [hp]
    · rw [calc_eq res err fc c n L hc hn hL]
    · intro p hp
      obtain ⟨statements, rfl⟩ := getFunctionURLPermissions_ok res err L hL
      have := ((mem_planOf_removes _ _ hset p).1 hp).1
      rw [StatementId_of_mem_permissionsOfStatements _ p this]
      simp

/-- C19, at live A, B and desired B, C: the Sid to add, C, and the Sid to remove, A, are
found, and the removal has a StatementId. -/
theorem calcFunctionURLPermissionsDiff_finds_every_sid_witness :
    (FunctionURLPermissions.Find
      (FunctionURLPermissions.Sids [explicitPermission "B" "*", explicitPermission "C" "*"]).2
      "C").1 ≠ none ∧
    ∃ plan : Plan,
      (calcFunctionURLPermissionsDiff
        (some (policyWith [allowStatement "A", allowStatement "B"])) none
        (definitionWith [explicitPermission "B" "*", explicitPermission "C" "*"])).1 =
        Outcome.ok plan ∧
      ∀ p ∈ plan.removes, p.StatementId ≠ none :=
  match (calcFunctionURLPermissionsDiff_finds_every_sid
      (some (policyWith [allowStatement "A", allowStatement "B"])) none
      (definitionWith [explicitPermission "B" "*", explicitPermission "C" "*"])).2
      { AuthType := "NONE", FunctionName := some "hello" } "hello"
      [permissionOfStatement (allowStatement "A"), permissionOfStatement (allowStatement "B")]
      rfl rfl rfl with
  | ⟨h1, _, h3⟩ => ⟨h1 "C" (by decide), h3⟩

/-- C11: outside dry-run mode, for every plan (empty or not), with the configuration and
the function name set, `deployFunctionURLPermissions` makes the planned calls in order,
an add-grant call for every addition in plan order before any remove-grant call, the
removals in plan order; either every call succeeds, all are made and no error is
returned, or the calls stop at the first add or remove call that fails: that call is the
last one made (the calls before it stay made) and an error wrapping its error is
returned. -/
theorem deployFunctionURLPermissions_adds_then_removes (remote : Remote)
    (res : Option GetPolicyOutput) (err : Option RemoteError) (fc fc1 : FunctionURL)
    (c : FunctionURLConfig) (n : String) (L : FunctionURLPermissions) (plan : Plan)
    (made : List Call)
    (hc : fc.Config = some c) (hn : c.FunctionName = some n)
    (hL : getFunctionURLPermissions res err = Except.ok L)
    (hplan : calcFunctionURLPermissionsDiff res err fc = (Outcome.ok plan, fc1)) :
    (AllSucceed remote made (plannedCalls c plan) ∧
      deployFunctionURLPermissions remote res err fc { DryRun := false } made =
        ⟨Outcome.ok (), made ++ plannedCalls c plan, fc1⟩) ∨
    ∃ pre call post e, plannedCalls c plan = pre ++ call :: post ∧
      AllSucceed remote made pre ∧ (remote (made ++ pre) call).err = some e ∧
      deployFunctionURLPermissions remote res err fc { DryRun := false } made =
        ⟨Outcome.error (failureText call ++ e.message), made ++ pre ++ [call], fc1⟩ := by
  rw [calc_eq res err fc c n L hc hn hL] at hplan
  injection hplan with h1 h2
  injection h1 with h1
  subst h1
  subst h2
  rw [deployFunctionURLPermissions_eq_issue remote res err fc c n L made hc hn hL]
  rcases issue_spec remote (plannedCalls c (planOf fc.Permissions L)) made with
    ⟨h1, h2, h3⟩ | ⟨pre, call, post, e, h1, h2, h3, h4, h5⟩
  · exact Or.inl ⟨h2, by rw [h1, h3]; rfl⟩
  · exact Or.inr ⟨pre, call, post, e, h1, h2, h3, by rw [h4, h5]; rfl⟩

/-- C11, at live A, B and desired B, C with a remote side that refuses removals: the
grant C is added, then the removal of A is tried and fails, and an error is returned. -/
theorem deployFunctionURLPermissions_adds_then_removes_witness :
    ((AllSucceed refusingRemovals []
        (plannedCalls { AuthType := "NONE", FunctionName := some "hello" }
          ⟨[explicitPermission "C" "*"], [permissionOfStatement (allowStatement "A")]⟩) ∧
      deployFunctionURLPermissions refusingRemovals
          (some (policyWith [allowStatement "A", allowStatement "B"])) none
          (definitionWith [explicitPermission "B" "*", explicitPermission "C" "*"])
          { DryRun := false } [] =
        ⟨Outcome.ok (), [] ++ plannedCalls { AuthType := "NONE", FunctionName := some "hello" }
          ⟨[explicitPermission "C" "*"], [permissionOfStatement (allowStatement "A")]⟩,
         definitionWith [explicitPermission "B" "*", explicitPermission "C" "*"]⟩) ∨
    ∃ pre call post e,
      plannedCalls { AuthType := "NONE", FunctionName := some "hello" }
          ⟨[explicitPermission "C" "*"], [permissionOfStatement (allowStatement "A")]⟩ =
        pre ++ call :: post ∧
      AllSucceed refusingRemovals [] pre ∧ (refusingRemovals ([] ++ pre) call).err = some e ∧
      deployFunctionURLPermissions refusingRemovals
          (some (policyWith [allowStatement "A", allowStatement "B"])) none
          (definitionWith [explicitPermission "B" "*", explicitPermission "C" "*"])
          { DryRun := false } [] =
        ⟨Outcome.error (failureText call ++ e.message), [] ++ pre ++ [call],
         definitionWith [explicitPermission "B" "*", explicitPermission "C" "*"]⟩) ∧
    deployFunctionURLPermissions refusingRemovals
        (some (policyWith [allowStatement "A", allowStatement "B"])) none
        (definitionWith [explicitPermission "B" "*", explicitPermission "C" "*"])
        { DryRun := false } [] =
      ⟨Outcome.error "failed to remove permission: access denied",
       [addCallOf { AuthType := "NONE", FunctionName := some "hello" } (explicitPermission "C" "*"),
        removeCallOf { AuthType := "NONE", FunctionName := some "hello" }
          (permissionOfStatement (allowStatement "A"))],
       definitionWith [explicitPermission "B" "*", explicitPermission "C" "*"]⟩ :=
  ⟨deployFunctionURLPermissions_adds_then_removes refusingRemovals
      (some (policyWith [allowStatement "A", allowStatement "B"])) none
      (definitionWith [explicitPermission "B" "*", explicitPermission "C" "*"])
      (definitionWith [explicitPermission "B" "*", explicitPermission "C" "*"])
      { AuthType := "NONE", FunctionName := some "hello" } "hello"
      [permissionOfStatement (allowStatement "A"), permissionOfStatement (allowStatement "B")]
      ⟨[explicitPermission "C" "*"], [permissionOfStatement (allowStatement "A")]⟩ []
      rfl rfl rfl (by decide),
   by decide⟩

/-- C12: with DryRun set, `deployFunctionURLPermissions` makes no call whatever the
policy read and `deployFunctionURLConfig` makes no create or update call; with the
configuration and the function name set, the first returns no error whenever the live
policy is read, the second whenever the read of the live configuration returns no error
or the not-found condition. -/
theorem dry_run_makes_no_call (remote : Remote) (res : Option GetPolicyOutput)
    (err : Option RemoteError) (urlRes : Option GetFunctionUrlConfigOutput)
    (urlErr : Option RemoteError) (fc : FunctionURL) (made : List Call) :
    (deployFunctionURLPermissions remote res err fc { DryRun := true } made).calls = made ∧
    (deployFunctionURLConfig remote urlRes urlErr fc { DryRun := true } made).calls = made ∧
    (∀ (c : FunctionURLConfig) (n : String) (L : FunctionURLPermissions),
      fc.Config = some c → c.FunctionName = some n →
      getFunctionURLPermissions res err = Except.ok L →
      (deployFunctionURLPermissions remote res err fc { DryRun := true } made).outcome =
        Outcome.ok ()) ∧
    (∀ (c : FunctionURLConfig) (n : String),
      fc.Config = some c → c.FunctionName = some n →
      (urlErr = none ∨ ∃ m, urlErr = some ⟨true, m⟩) →
      deployFunctionURLConfig remote urlRes urlErr fc { DryRun := true } made =
        ⟨Outcome.ok (), made, fc⟩) := by
  refine ⟨?_, ?_, ?_, ?_⟩
  · unfold deployFunctionURLPermissions
    split
    · rfl
    · rfl
    · simp only []
      split
      · rfl
      · simp
  · unfold deployFunctionURLConfig
    split
    · rfl
    · split
      · rfl
      · simp only []
        split
        · rfl
        · simp
  · intro c n L hc hn hL
    unfold deployFunctionURLPermissions
    rw [calc_eq res err fc c n L hc hn hL]
    simp only []
    split
    · rfl
    · simp
  · intro c n hc hn hread
    unfold deployFunctionURLConfig
    rcases hread with h | ⟨m, h⟩
    · simp [hc, hn, h]
    · simp [hc, hn, h]

/-- C12, at live A, B and desired B, C with DryRun set: no call is made although the
plan is not empty, and no error is returned; the configuration step makes no call
either when the live configuration is not found. -/
theorem dry_run_makes_no_call_witness :
    (deployFunctionURLPermissions refusingRemovals
        (some (policyWith [allowStatement "A", allowStatement "B"])) none
        (definitionWith [explicitPermission "B" "*", explicitPermission "C" "*"])
        { DryRun := true } []).calls = [] ∧
    (deployFunctionURLPermissions refusingRemovals
        (some (policyWith [allowStatement "A", allowStatement "B"])) none
        (definitionWith [explicitPermission "B" "*", explicitPermission "C" "*"])
        { DryRun := true } []).outcome = Outcome.ok () ∧
    deployFunctionURLConfig refusingRemovals none (some ⟨true, "ResourceNotFoundException"⟩)
        (definitionWith [explicitPermission "B" "*", explicitPermission "C" "*"])
        { DryRun := true } [] =
      ⟨Outcome.ok (), [], definitionWith [explicitPermission "B" "*", explicitPermission "C" "*"]⟩ :=
  ⟨(dry_run_makes_no_call refusingRemovals
      (some (policyWith [allowStatement "A", allowStatement "B"])) none none
      (some ⟨true, "ResourceNotFoundException"⟩)
      (definitionWith [explicitPermission "B" "*", explicitPermission "C" "*"]) []).1,
   (dry_run_makes_no_call refusingRemovals
      (some (policyWith [allowStatement "A", allowStatement "B"])) none none
      (some ⟨true, "ResourceNotFoundException"⟩)
      (definitionWith [explicitPermission "B" "*", explicitPermission "C" "*"]) []).2.2.1
      { AuthType := "NONE", FunctionName := some "hello" } "hello"
      [permissionOfStatement (allowStatement "A"), permissionOfStatement (allowStatement "B")]
      rfl rfl rfl,
   (dry_run_makes_no_call refusingRemovals
      (some (policyWith [allowStatement "A", allowStatement "B"])) none none
      (some ⟨true, "ResourceNotFoundException"⟩)
      (definitionWith [explicitPermission "B" "*", explicitPermission "C" "*"]) []).2.2.2
      { AuthType := "NONE", FunctionName := some "hello" } "hello" rfl rfl
      (Or.inr ⟨"ResourceNotFoundException", rfl⟩)⟩

/-- C13: for every source tree, every host and every list of exclude patterns, every
entry written by `createZipArchive` is named by the root-relative path of a visited
entry that is not a directory, and `matchExcludes` is false of that name, that is, no
pattern matches it; its header information is that entry's own or that of a followed
link target that is not a directory. The archive returned holds the entries written. For
example, with the patterns `index.js` and `dir/sub.txt` neither name is in the archive
of the test tree. -/
theorem createZipArchive_excludes (sys : Host) (src : String) (source : Source)
    (excludes : List String) (keepSymlink : Bool) :
    (∀ e ∈ (walkAll sys src excludes keepSymlink [] (walkDir sys src source)).1,
      matchExcludes sys e.Name excludes = false ∧
      (∀ pattern ∈ excludes, sys.wildcardMatch pattern e.Name = false) ∧
      ∃ path d, Visit.entry path d ∈ walkDir sys src source ∧ d.IsDir = false ∧
        e.Name = sys.Rel src path ∧ (d.Info = Except.ok e.Info ∨ e.Info.IsDir = false)) ∧
    (∀ entries, (createZipArchive sys src source excludes keepSymlink).file = some entries →
      entries = (walkAll sys src excludes keepSymlink [] (walkDir sys src source)).1) ∧
    entryNames (createZipArchive (sampleHost []) "test/src" (Source.present sampleTree)
        ["index.js", "dir/sub.txt"] true) =
      some ["dir.symlink", "ext-hello.txt", "hello.symlink", "hello.txt", "world"] := by
  refine ⟨?_, ?_, by decide⟩
  · intro e he
    rcases walkAll_entries sys src excludes keepSymlink _ [] e he with h | ⟨path, d, hv, hd, hm, hn, hi⟩
    · cases h
    · exact ⟨hm, (matchExcludes_eq_false sys e.Name excludes).1 hm, path, d, hv, hd, hn, hi⟩
  · intro entries h
    unfold createZipArchive at h
    split at h
    · cases h
    · simp only [] at h
      split at h
      · cases h
      · injection h with h
        exact h.symm

/-- C14, as stated, fails: with keepSymlink = false, the link `hello.symlink` points to
the regular file `hello.txt`, which is statted and is no directory but cannot be opened;
`addToZip` writes no entry and returns the error of the open. -/
theorem addToZip_target_not_opened :
    helloSymlinkEntry.Info = Except.ok (symlinkInfo "hello.symlink") ∧
    (symlinkInfo "hello.symlink").IsSymlink = true ∧
    (sampleHost ["test/src/hello.txt"]).Readlink "test/src/hello.symlink" = Except.ok "hello.txt" ∧
    (sampleHost ["test/src/hello.txt"]).Stat "test/src/hello.txt" =
      Except.ok (regularInfo "hello.txt") ∧
    (regularInfo "hello.txt").IsDir = false ∧
    addToZip (sampleHost ["test/src/hello.txt"]) [] "test/src/hello.symlink" "hello.symlink"
        helloSymlinkEntry false = ([], some "permission denied") :=
  ⟨rfl, rfl, rfl, rfl, rfl, by decide⟩

/-- C14 (amended): with keepSymlink = false, for every symlink met in the walk: when its
target is a directory or cannot be statted (or the link cannot be read), `addToZip`
writes no entry and returns no error; when its target is statted, is not a directory and
is opened, and the header is made and created without error, exactly one entry is
written, named by the symlink's own relative path, with the target's information. So the
test tree yields `hello.symlink` and not `dir.symlink`, and both with keepSymlink =
true. -/
theorem addToZip_follows_symlink (sys : Host) (z : List ZipEntry) (path relpath : String)
    (entry : DirEntry) (info : FileInfo)
    (hinfo : entry.Info = Except.ok info) (hsym : info.IsSymlink = true) :
    (∀ link, sys.Readlink path = Except.ok link →
      ((∃ err, sys.Stat (sys.Join (sys.Dir path) link) = Except.error err) ∨
        ∃ t, sys.Stat (sys.Join (sys.Dir path) link) = Except.ok t ∧ t.IsDir = true) →
      addToZip sys z path relpath entry false = (z, none)) ∧
    (∀ err, sys.Readlink path = Except.error err →
      addToZip sys z path relpath entry false = (z, none)) ∧
    (∀ link t content, sys.Readlink path = Except.ok link →
      sys.Stat (sys.Join (sys.Dir path) link) = Except.ok t → t.IsDir = false →
      sys.Open (sys.Join (sys.Dir path) link) = Except.ok content →
      sys.FileInfoHeader t = none → sys.CreateHeader z relpath = none →
      addToZip sys z path relpath entry false =
        (z ++ [⟨relpath, t, zipDeflate, content⟩], sys.Copy relpath)) ∧
    entryNames (createZipArchive (sampleHost []) "test/src" (Source.present sampleTree) [] false) =
      some ["dir/sub.txt", "ext-hello.txt", "hello.symlink", "hello.txt", "index.js", "world"] ∧
    entryNames (createZipArchive (sampleHost []) "test/src" (Source.present sampleTree) [] true) =
      some ["dir/sub.txt", "dir.symlink", "ext-hello.txt", "hello.symlink", "hello.txt",
        "index.js", "world"] := by
  refine ⟨?_, ?_, ?_, by decide, by decide⟩
  · intro link hl hstat
    rcases hstat with ⟨err, hs⟩ | ⟨t, hs, hd⟩
    · simp [addToZip, hinfo, hsym, followSymlink, hl, hs]
    · simp [addToZip, hinfo, hsym, followSymlink, hl, hs, hd]
  · intro err hl
    simp [addToZip, hinfo, hsym, followSymlink, hl]
  · intro link t content hl hs hd ho hh hcr
    simp [addToZip, hinfo, hsym, followSymlink, hl, hs, hd, writeEntry, ho, hh, hcr]

/-- C14, at the link `hello.symlink` of the test tree, nothing failing: one entry named
`hello.symlink` with the information of `hello.txt`. -/
theorem addToZip_follows_symlink_witness :
    addToZip (sampleHost []) [] "test/src/hello.symlink" "hello.symlink" helloSymlinkEntry false =
      ([⟨"hello.symlink", regularInfo "hello.txt", zipDeflate, stringBytes "test/src/hello.txt"⟩],
       none) :=
  (addToZip_follows_symlink (sampleHost []) [] "test/src/hello.symlink" "hello.symlink"
    helloSymlinkEntry (symlinkInfo "hello.symlink") rfl rfl).2.2.1
    "hello.txt" (regularInfo "hello.txt") (stringBytes "test/src/hello.txt")
    rfl rfl rfl rfl rfl rfl

end Lambroll
